import Mathlib

/-!
Verification of the replicated state-machine core of the indexify control
plane (`src/state/store/state_machine_objects.rs`).  The development gives a
shallow embedding of the forward-index writers, the request dispatcher
`apply_state_machine_updates`, and the reverse-index mutator `apply`, and
settles the specification claims against it.

Modelling conventions:
* RocksDB columns are association lists from `String` keys to typed records;
  keys are unique by construction.
* Rust `HashSet<String>` values are lists with duplicate-free insertion
  (`insertS`); membership and set-equality are what matter, matching the
  hash-set semantics of the source.
* The outcome of `txn.commit()` is an environmental event; it is passed in
  as a `commitOk : Bool` parameter.  Reads inside a transaction observe the
  transaction's own pending writes, so the transaction is modelled as a
  `Store` value threaded through the writers.
* `JsonEncoder` never fails to encode the well-typed records of this file,
  and `get`/`put`/`delete` I/O errors are environmental; the only
  deterministic writer failures are missing-key reads, which are modelled
  exactly (including their message strings).
-/

namespace Indexify

/-- Association list from string keys to values: the model of one RocksDB
column family.  Keys are unique by construction of `insertA`. -/
abbrev AList (V : Type) : Type := List (String × V)

/-- Key lookup in a column. -/
def lookupA {V : Type} : AList V → String → Option V
  | [], _ => none
  | (k, v) :: rest, key => if k = key then some v else lookupA rest key

/-- Key insertion / overwrite in a column (RocksDB `put_cf`). -/
def insertA {V : Type} : AList V → String → V → AList V
  | [], key, v => [(key, v)]
  | (k, w) :: rest, key, v =>
    if k = key then (k, v) :: rest else (k, w) :: insertA rest key v

/-- Key deletion in a column (RocksDB `delete_cf`). -/
def eraseA {V : Type} : AList V → String → AList V
  | [], _ => []
  | (k, w) :: rest, key =>
    if k = key then eraseA rest key else (k, w) :: eraseA rest key

/-- `HashSet::insert`: duplicate-free insertion into a string set. -/
def insertS (xs : List String) (x : String) : List String :=
  if x ∈ xs then xs else xs ++ [x]

/-- `HashSet::remove`: removal from a string set. -/
def removeS (xs : List String) (x : String) : List String :=
  xs.filter (fun y => decide (y ≠ x))

/-- The `map.entry(k).or_default()` pattern of the source: fetch the set
stored under `k` (defaulting to the empty set), transform it, store it back.
Note that this creates an entry for `k` even when the result is empty,
exactly as `or_default` does. -/
def updEntry (m : AList (List String)) (k : String)
    (f : List String → List String) : AList (List String) :=
  insertA m k (f ((lookupA m k).getD []))

/-- Errors of the state machine (`StateMachineError`).  The source wraps all
missing-key reads in `DatabaseError` with a descriptive message and commit
failures in `TransactionError`. -/
inductive StateMachineError where
  | DatabaseError (msg : String)
  | TransactionError (msg : String)
deriving DecidableEq

/-- Modelled from the spec (§3.1, §4.6): `StateChange` record of the
`indexify_internal_api` crate, which is not part of this repository's
sources.  Fields: id, kind, payload, created_at, processed_at. -/
structure StateChange where
  id : String
  kind : String
  payload : String
  created_at : Nat
  processed_at : Option Nat
deriving DecidableEq

/-- A `(state_change_id, processed_at)` entry of a request
(`StateChangeProcessed` of `requests.rs`, reconstructed from its uses and
§6 of the spec). -/
structure StateChangeProcessed where
  state_change_id : String
  processed_at : Nat
deriving DecidableEq

/-- Modelled from the spec (§3.1, §8 scenario 4): the task outcome of the
`indexify_internal_api` crate, which is not part of this repository's
sources.  `Success` is the terminal outcome used in the spec's scenarios;
`Failure` is the other terminal outcome; `Unknown` is not terminal. -/
inductive TaskOutcome where
  | Unknown
  | Success
  | Failure
deriving DecidableEq

/-- Whether an outcome is terminal (spec §3.3 I2). -/
def TaskOutcome.is_terminal : TaskOutcome → Bool
  | .Unknown => false
  | .Success => true
  | .Failure => true

/-- Task record (spec §3.1; `internal_api::Task`).  The source field
`namespace` is a Lean keyword and is rendered `nspace`. -/
structure Task where
  id : String
  extractor : String
  nspace : String
  content_id : String
  outcome : TaskOutcome
deriving DecidableEq

/-- Content metadata record (spec §3.1; `internal_api::ContentMetadata`).
The source field `namespace` is rendered `nspace`. -/
structure ContentMetadata where
  id : String
  nspace : String
deriving DecidableEq

/-- Extractor descriptor (`internal_api::ExtractorDescription`). -/
structure ExtractorDescription where
  name : String
  description : String
deriving DecidableEq

/-- Executor record, with the exact field order of the construction in
`set_executor`. -/
structure ExecutorMetadata where
  id : String
  last_seen : Nat
  addr : String
  extractor : ExtractorDescription
deriving DecidableEq

/-- Extraction policy record (spec §3.1).  `namespace` rendered `nspace`. -/
structure ExtractionPolicy where
  id : String
  nspace : String
  name : String
  extractor : String
deriving DecidableEq

/-- Structured data schema record (spec §3.1). -/
structure StructuredDataSchema where
  id : String
  nspace : String
  columns : String
deriving DecidableEq

/-- Index descriptor (spec §3.1). -/
structure Index where
  name : String
  table_name : String
deriving DecidableEq

/-- `internal_api::ContentExtractionPolicyMapping`: the record of the
`ExtractionPoliciesAppliedOnContent` column. -/
structure ContentExtractionPolicyMapping where
  content_id : String
  extraction_policy_names : List String
  time_of_policy_completion : AList Nat
deriving DecidableEq

/-- The eleven persisted columns (`StateMachineColumns`), each an
association list from string id to its typed record. -/
structure Store where
  stateChanges : AList StateChange
  tasks : AList Task
  taskAssignments : AList (List String)
  executors : AList ExecutorMetadata
  extractors : AList ExtractorDescription
  contentTable : AList ContentMetadata
  extractionPolicies : AList ExtractionPolicy
  namespaces : AList String
  structuredDataSchemas : AList StructuredDataSchema
  indexTable : AList Index
  policiesAppliedOnContent : AList ContentExtractionPolicyMapping
deriving DecidableEq

/-- The empty store of a fresh replica. -/
def Store.empty : Store :=
  ⟨[], [], [], [], [], [], [], [], [], [], []⟩

/-- The nine in-memory reverse indexes (`IndexifyState`). -/
structure IndexifyState where
  unassigned_tasks : List String
  unprocessed_state_changes : List String
  content_namespace_table : AList (List String)
  extraction_policies_table : AList (List String)
  extractor_executors_table : AList (List String)
  namespace_index_table : AList (List String)
  unfinished_tasks_by_extractor : AList (List String)
  executor_running_task_count : AList Nat
  schemas_by_namespace : AList (List String)
deriving DecidableEq

/-- The default (empty) reverse-index state. -/
def IndexifyState.empty : IndexifyState :=
  ⟨[], [], [], [], [], [], [], [], []⟩

/-- Request payload (`RequestPayload` of `requests.rs`, reconstructed from
its uses in the source and §4.4 of the spec).  `Other` stands for the
remaining variants, which both the forward and the reverse dispatch ignore
(the `_ => ()` arms of the source). -/
inductive RequestPayload where
  | CreateIndex (index : Index) (nspace : String) (id : String)
  | CreateTasks (tasks : List Task)
  | AssignTask (assignments : List (String × String))
  | UpdateTask (task : Task) (mark_finished : Bool) (executor_id : Option String)
      (content_metadata : List ContentMetadata)
  | RegisterExecutor (addr : String) (executor_id : String)
      (extractor : ExtractorDescription) (ts_secs : Nat)
  | RemoveExecutor (executor_id : String)
  | CreateContent (content_metadata : List ContentMetadata)
  | CreateExtractionPolicy (extraction_policy : ExtractionPolicy)
      (updated_structured_data_schema : Option StructuredDataSchema)
      (new_structured_data_schema : StructuredDataSchema)
  | SetContentExtractionPolicyMappings
      (content_extraction_policy_mappings : List ContentExtractionPolicyMapping)
  | MarkExtractionPolicyAppliedOnContent (content_id : String)
      (extraction_policy_name : String) (policy_completion_time : Nat)
  | CreateNamespace (name : String) (structured_data_schema : StructuredDataSchema)
  | MarkStateChangesProcessed (state_changes : List StateChangeProcessed)
  | Other
deriving DecidableEq

/-- `StateMachineUpdateRequest` (spec §6). -/
structure StateMachineUpdateRequest where
  new_state_changes : List StateChange
  state_changes_processed : List StateChangeProcessed
  payload : RequestPayload
deriving DecidableEq

/-- `set_new_state_changes`: persist every new change under its id. -/
def set_new_state_changes (sc : AList StateChange) (state_changes : List StateChange) :
    AList StateChange :=
  state_changes.foldl (fun m change => insertA m change.id change) sc

/-- `set_processed_state_changes`: for each entry, read the record (failing
with the source's "State change not found" message if absent), set
`processed_at`, and write it back. -/
def set_processed_state_changes :
    AList StateChange → List StateChangeProcessed →
      Except StateMachineError (AList StateChange)
  | sc, [] => .ok sc
  | sc, change :: rest =>
    match lookupA sc change.state_change_id with
    | none => .error (.DatabaseError "State change not found")
    | some ch =>
      set_processed_state_changes
        (insertA sc change.state_change_id { ch with processed_at := some change.processed_at })
        rest

/-- `set_index`: persist an index descriptor under `id`. -/
def set_index (m : AList Index) (index : Index) (id : String) : AList Index :=
  insertA m id index

/-- `set_tasks` / `update_tasks`: persist each task under its id. -/
def set_tasks (m : AList Task) (tasks : List Task) : AList Task :=
  tasks.foldl (fun acc task => insertA acc task.id task) m

/-- `get_task_assignments_for_executor`: read the assignment set of an
executor, defaulting to the empty set when the key is absent. -/
def get_task_assignments_for_executor (ta : AList (List String))
    (executor_id : String) : List String :=
  (lookupA ta executor_id).getD []

/-- `set_task_assignments`: write each executor's assignment set. -/
def set_task_assignments (ta : AList (List String))
    (task_assignments : List (String × List String)) : AList (List String) :=
  task_assignments.foldl (fun acc p => insertA acc p.1 p.2) ta

/-- `delete_task_assignments_for_executor`: return the prior set of task ids
(empty when the key is absent) and delete the key. -/
def delete_task_assignments_for_executor (ta : AList (List String))
    (executor_id : String) : List String × AList (List String) :=
  ((lookupA ta executor_id).getD [], eraseA ta executor_id)

/-- `set_content`: persist each content-metadata record under its id. -/
def set_content (m : AList ContentMetadata) (contents_vec : List ContentMetadata) :
    AList ContentMetadata :=
  contents_vec.foldl (fun acc content => insertA acc content.id content) m

/-- `set_executor`: persist the executor record built exactly as in the
source (`id`, `last_seen`, `addr`, `extractor`). -/
def set_executor (m : AList ExecutorMetadata) (addr : String) (executor_id : String)
    (extractor : ExtractorDescription) (ts_secs : Nat) : AList ExecutorMetadata :=
  insertA m executor_id ⟨executor_id, ts_secs, addr, extractor⟩

/-- `delete_executor`: read the executor record (failing with the source's
"Executor ... not found" message if absent), delete the key, and return the
record. -/
def delete_executor (m : AList ExecutorMetadata) (executor_id : String) :
    Except StateMachineError (ExecutorMetadata × AList ExecutorMetadata) :=
  match lookupA m executor_id with
  | none => .error (.DatabaseError ("Executor " ++ executor_id ++ " not found"))
  | some executor_meta => .ok (executor_meta, eraseA m executor_id)

/-- `set_extractor`: persist the extractor descriptor under its name. -/
def set_extractor (m : AList ExtractorDescription) (extractor : ExtractorDescription) :
    AList ExtractorDescription :=
  insertA m extractor.name extractor

/-- `set_schema`: persist a structured-data schema under its id. -/
def set_schema (m : AList StructuredDataSchema) (schema : StructuredDataSchema) :
    AList StructuredDataSchema :=
  insertA m schema.id schema

/-- `set_extraction_policy` (schema part): upsert the updated schema when
present, then the new schema, in source order. -/
def set_extraction_policy_schemas (m : AList StructuredDataSchema)
    (updated_structured_data_schema : Option StructuredDataSchema)
    (new_structured_data_schema : StructuredDataSchema) : AList StructuredDataSchema :=
  set_schema
    (match updated_structured_data_schema with
     | some schema => set_schema m schema
     | none => m)
    new_structured_data_schema

/-- The message of the error raised when no `ExtractionPoliciesAppliedOnContent`
record exists for a content id. -/
def no_mapping_msg (content_id : String) : String :=
  "No content policies applied on content found for id " ++ content_id

/-- The message of the `PolicyNotRegistered`-style error of
`mark_extraction_policy_applied_on_content`. -/
def policy_not_registered_msg (extraction_policy_name content_id : String) : String :=
  "Extraction policy " ++ extraction_policy_name ++ " not applied on content " ++
    content_id ++ " because extraction policy was not registered against the content"

/-- `mark_extraction_policy_applied_on_content`: read the mapping record
(failing if absent), require the policy name to be registered in it, record
the completion time, and write the record back. -/
def mark_extraction_policy_applied_on_content
    (m : AList ContentExtractionPolicyMapping) (content_id : String)
    (extraction_policy_name : String) (policy_completion_time : Nat) :
    Except StateMachineError (AList ContentExtractionPolicyMapping) :=
  match lookupA m content_id with
  | none => .error (.DatabaseError (no_mapping_msg content_id))
  | some content_policy_mappings =>
    if extraction_policy_name ∈ content_policy_mappings.extraction_policy_names then
      .ok (insertA m content_id
        ⟨content_id, content_policy_mappings.extraction_policy_names,
          insertA content_policy_mappings.time_of_policy_completion
            extraction_policy_name policy_completion_time⟩)
    else
      .error (.DatabaseError (policy_not_registered_msg extraction_policy_name content_id))

/-- `set_content_policies_applied_on_content`: batched read of every input
mapping's record (synthesizing an empty record when absent), in-memory union
of `extraction_policy_names` and merge of `time_of_policy_completion`, then
write-back of all updated records.  All reads happen before any write, as
with the source's `multi_get_cf`. -/
def set_content_policies_applied_on_content
    (m : AList ContentExtractionPolicyMapping)
    (mappings : List ContentExtractionPolicyMapping) :
    AList ContentExtractionPolicyMapping :=
  let updated_mappings := mappings.map (fun new_mapping =>
    let existing_mapping := (lookupA m new_mapping.content_id).getD
      ⟨new_mapping.content_id, [], []⟩
    ⟨existing_mapping.content_id,
      new_mapping.extraction_policy_names.foldl insertS
        existing_mapping.extraction_policy_names,
      new_mapping.time_of_policy_completion.foldl (fun acc p => insertA acc p.1 p.2)
        existing_mapping.time_of_policy_completion⟩)
  updated_mappings.foldl
    (fun acc (um : ContentExtractionPolicyMapping) => insertA acc um.content_id um) m

/-- Modelled from the spec (§4.4 AssignTask, §9): `increment_running_task_count`
of `store_utils.rs`, which is not part of this repository's sources; inserts
the key at 0 when absent and adds one. -/
def increment_running_task_count (m : AList Nat) (executor_id : String) : AList Nat :=
  insertA m executor_id ((lookupA m executor_id).getD 0 + 1)

/-- Modelled from the spec (§4.4 UpdateTask, §3.2: the count is a
non-negative `usize`): `decrement_running_task_count` of `store_utils.rs`,
which is not part of this repository's sources; inserts the key at 0 when
absent and subtracts one, saturating at zero. -/
def decrement_running_task_count (m : AList Nat) (executor_id : String) : AList Nat :=
  insertA m executor_id ((lookupA m executor_id).getD 0 - 1)

/-- The forward write of an `AssignTask` payload (source lines 556-575):
group the assignments by executor, then for each executor read its current
assignment set from the transaction, extend it, and write it back. -/
def assign_task_forward (ta : AList (List String))
    (assignments : List (String × String)) : AList (List String) :=
  let grouped : AList (List String) :=
    assignments.foldl (fun acc p => updEntry acc p.2 (fun s => insertS s p.1)) []
  grouped.foldl
    (fun acc p =>
      let existing_tasks := get_task_assignments_for_executor acc p.1
      set_task_assignments acc [(p.1, p.2.foldl insertS existing_tasks)])
    ta

/-- `mark_state_changes_processed` (reverse side): remove the change id from
`unprocessed_state_changes`; the timestamp argument of the source is unused
there as well. -/
def mark_state_changes_processed (s : IndexifyState)
    (state_change : StateChangeProcessed) : IndexifyState :=
  { s with unprocessed_state_changes :=
      removeS s.unprocessed_state_changes state_change.state_change_id }

/-- `update_schema_reverse_idx`: insert the schema id into
`schemas_by_namespace` under the schema's namespace. -/
def update_schema_reverse_idx (s : IndexifyState)
    (schema : StructuredDataSchema) : IndexifyState :=
  { s with schemas_by_namespace :=
      updEntry s.schemas_by_namespace schema.nspace (fun xs => insertS xs schema.id) }

/-- The per-task reverse step of the `CreateTasks` arm of `apply`. -/
def create_task_reverse (s : IndexifyState) (task : Task) : IndexifyState :=
  let un := insertS s.unassigned_tasks task.id
  let uf := updEntry s.unfinished_tasks_by_extractor task.extractor
    (fun ts => insertS ts task.id)
  { s with unassigned_tasks := un, unfinished_tasks_by_extractor := uf }

/-- The per-assignment reverse step of the `AssignTask` arm of `apply`:
remove the task id from `unassigned_tasks` and increment the executor's
running-task count (unconditionally, once per assignment in the request). -/
def assign_task_reverse (s : IndexifyState) (p : String × String) : IndexifyState :=
  let un := removeS s.unassigned_tasks p.1
  let cnt := increment_running_task_count s.executor_running_task_count p.2
  { s with unassigned_tasks := un, executor_running_task_count := cnt }

/-- The per-content reverse step shared by the `CreateContent` and
`UpdateTask` arms of `apply`. -/
def create_content_reverse (s : IndexifyState) (content : ContentMetadata) :
    IndexifyState :=
  let tbl := updEntry s.content_namespace_table content.nspace
    (fun cs => insertS cs content.id)
  { s with content_namespace_table := tbl }

/-- The payload dispatch of the reverse-index mutator `apply` (the
`match request.payload` of source lines 716-828), split out as a function
of the payload and the state after the state-change bookkeeping. -/
def apply_payload (s2 : IndexifyState) : RequestPayload → IndexifyState
  | .RegisterExecutor _addr executor_id extractor _ts_secs =>
    let tbl := updEntry s2.extractor_executors_table extractor.name
      (fun es => insertS es executor_id)
    let s3 := { s2 with extractor_executors_table := tbl }
    let cnt := insertA s3.executor_running_task_count executor_id 0
    { s3 with executor_running_task_count := cnt }
  | .RemoveExecutor _executor_id => s2
  | .CreateTasks tasks => tasks.foldl create_task_reverse s2
  | .AssignTask assignments => assignments.foldl assign_task_reverse s2
  | .CreateContent content_metadata =>
    content_metadata.foldl create_content_reverse s2
  | .CreateExtractionPolicy extraction_policy updated_structured_data_schema
      new_structured_data_schema =>
    let tbl := updEntry s2.extraction_policies_table extraction_policy.nspace
      (fun ps => insertS ps extraction_policy.id)
    let s3 := { s2 with extraction_policies_table := tbl }
    let s4 :=
      match updated_structured_data_schema with
      | some schema => update_schema_reverse_idx s3 schema
      | none => s3
    update_schema_reverse_idx s4 new_structured_data_schema
  | .CreateNamespace _name structured_data_schema =>
    update_schema_reverse_idx s2 structured_data_schema
  | .CreateIndex _index nspace id =>
    let tbl := updEntry s2.namespace_index_table nspace (fun xs => insertS xs id)
    { s2 with namespace_index_table := tbl }
  | .UpdateTask task mark_finished executor_id content_metadata =>
    let s3 :=
      if mark_finished then
        let sa := { s2 with unassigned_tasks := removeS s2.unassigned_tasks task.id }
        let uf := updEntry sa.unfinished_tasks_by_extractor task.extractor
          (fun ts => removeS ts task.id)
        let sb := { sa with unfinished_tasks_by_extractor := uf }
        match executor_id with
        | some eid =>
          let cnt := decrement_running_task_count sb.executor_running_task_count eid
          { sb with executor_running_task_count := cnt }
        | none => sb
      else s2
    content_metadata.foldl create_content_reverse s3
  | .MarkStateChangesProcessed state_changes =>
    state_changes.foldl mark_state_changes_processed s2
  | _ => s2

/-- The reverse-index mutator `apply` (source lines 709-829): first insert
every new state change into `unprocessed_state_changes` and remove every
processed one, then dispatch on the payload. -/
def apply (request : StateMachineUpdateRequest) (s0 : IndexifyState) : IndexifyState :=
  let up1 := request.new_state_changes.foldl (fun u change => insertS u change.id)
    s0.unprocessed_state_changes
  let s1 := { s0 with unprocessed_state_changes := up1 }
  let s2 := request.state_changes_processed.foldl mark_state_changes_processed s1
  apply_payload s2 request.payload

/-- The payload-specific forward writes of `apply_state_machine_updates`
(the `match &request.payload` of source lines 545-696, minus the bespoke
`RemoveExecutor` arm, which the dispatcher below handles itself).  The
result pairs the transaction outcome with the in-memory state, because the
`UpdateTask` arm decrements `executor_running_task_count` inside the
transaction body (source line 595). -/
def payload_forward (txn : Store) (s : IndexifyState) :
    RequestPayload → Except StateMachineError Store × IndexifyState
  | .CreateIndex index _nspace id =>
    (.ok { txn with indexTable := set_index txn.indexTable index id }, s)
  | .CreateTasks tasks =>
    (.ok { txn with tasks := set_tasks txn.tasks tasks }, s)
  | .AssignTask assignments =>
    let ta := assign_task_forward txn.taskAssignments assignments
    (.ok { txn with taskAssignments := ta }, s)
  | .UpdateTask task mark_finished executor_id content_metadata =>
    let txn1 := { txn with tasks := set_tasks txn.tasks [task] }
    let step :=
      if mark_finished then
        match executor_id with
        | some eid =>
          let existing_tasks :=
            get_task_assignments_for_executor txn1.taskAssignments eid
          let ta := set_task_assignments txn1.taskAssignments
            [(eid, removeS existing_tasks task.id)]
          let cnt := decrement_running_task_count s.executor_running_task_count eid
          ({ txn1 with taskAssignments := ta },
           { s with executor_running_task_count := cnt })
        | none => (txn1, s)
      else (txn1, s)
    let ct := set_content step.1.contentTable content_metadata
    (.ok { step.1 with contentTable := ct }, step.2)
  | .RegisterExecutor addr executor_id extractor ts_secs =>
    let ex := set_executor txn.executors addr executor_id extractor ts_secs
    let xt := set_extractor txn.extractors extractor
    (.ok { txn with executors := ex, extractors := xt }, s)
  | .RemoveExecutor _executor_id => (.ok txn, s)
  | .CreateContent content_metadata =>
    let ct := set_content txn.contentTable content_metadata
    (.ok { txn with contentTable := ct }, s)
  | .CreateExtractionPolicy extraction_policy updated_structured_data_schema
      new_structured_data_schema =>
    let ep := insertA txn.extractionPolicies extraction_policy.id extraction_policy
    let sd := set_extraction_policy_schemas txn.structuredDataSchemas
      updated_structured_data_schema new_structured_data_schema
    (.ok { txn with extractionPolicies := ep, structuredDataSchemas := sd }, s)
  | .SetContentExtractionPolicyMappings content_extraction_policy_mappings =>
    let pm := set_content_policies_applied_on_content txn.policiesAppliedOnContent
      content_extraction_policy_mappings
    (.ok { txn with policiesAppliedOnContent := pm }, s)
  | .MarkExtractionPolicyAppliedOnContent content_id extraction_policy_name
      policy_completion_time =>
    match mark_extraction_policy_applied_on_content txn.policiesAppliedOnContent
        content_id extraction_policy_name policy_completion_time with
    | .error e => (.error e, s)
    | .ok m => (.ok { txn with policiesAppliedOnContent := m }, s)
  | .CreateNamespace name structured_data_schema =>
    let nm := insertA txn.namespaces name name
    let sd := set_schema txn.structuredDataSchemas structured_data_schema
    (.ok { txn with namespaces := nm, structuredDataSchemas := sd }, s)
  | .MarkStateChangesProcessed state_changes =>
    match set_processed_state_changes txn.stateChanges state_changes with
    | .error e => (.error e, s)
    | .ok sc => (.ok { txn with stateChanges := sc }, s)
  | .Other => (.ok txn, s)

/-- The dispatcher `apply_state_machine_updates` (source lines 535-704).
`commitOk` is the environmental outcome of `txn.commit()`.  On any writer
error or commit failure the transaction is dropped (the persisted store is
returned unchanged) and the in-memory state is whatever mutations had
already been made to it — only the `UpdateTask` arm mutates it before the
commit.  `RemoveExecutor` commits early and performs its own reverse step,
never reaching `apply` (source lines 617-647). -/
def apply_state_machine_updates (commitOk : Bool) (store : Store)
    (s : IndexifyState) (request : StateMachineUpdateRequest) :
    Except StateMachineError Unit × Store × IndexifyState :=
  let sc0 := set_new_state_changes store.stateChanges request.new_state_changes
  match set_processed_state_changes sc0 request.state_changes_processed with
  | .error e => (.error e, store, s)
  | .ok sc1 =>
    let txn1 := { store with stateChanges := sc1 }
    match request.payload with
    | .RemoveExecutor executor_id =>
      match delete_executor txn1.executors executor_id with
      | .error e => (.error e, store, s)
      | .ok (executor_meta, ex1) =>
        let del := delete_task_assignments_for_executor txn1.taskAssignments executor_id
        let txn2 := { txn1 with executors := ex1, taskAssignments := del.2 }
        if commitOk then
          let tbl := updEntry s.extractor_executors_table executor_meta.extractor.name
            (fun es => removeS es executor_meta.id)
          let s1 := { s with extractor_executors_table := tbl }
          let s2 := { s1 with unassigned_tasks := del.1.foldl insertS s1.unassigned_tasks }
          let cnt := eraseA s2.executor_running_task_count executor_id
          let s3 := { s2 with executor_running_task_count := cnt }
          (.ok (), txn2, s3)
        else (.error (.TransactionError "commit failed"), store, s)
    | _ =>
      match payload_forward txn1 s request.payload with
      | (.error e, s') => (.error e, store, s')
      | (.ok txn2, s') =>
        if commitOk then (.ok (), txn2, apply request s')
        else (.error (.TransactionError "commit failed"), store, s')

/-- Sequential application of requests in log order with successful commits,
stopping at the first error (the replication layer's apply loop). -/
def runSeq : Store × IndexifyState → List StateMachineUpdateRequest →
    Except StateMachineError (Store × IndexifyState)
  | p, [] => .ok p
  | (st, s), r :: rest =>
    match apply_state_machine_updates true st s r with
    | (.ok _, st', s') => runSeq (st', s') rest
    | (.error e, _, _) => .error e

/-- A fresh replica: empty store and empty reverse indexes. -/
def freshPair : Store × IndexifyState := (Store.empty, IndexifyState.empty)

/-- Spec invariant I4, on one state-changes column and one id set:
`unprocessed_state_changes` is exactly the set of ids of persisted
`StateChanges` records whose `processed_at` is `None`. -/
def sc_inv (sc : AList StateChange) (up : List String) : Prop :=
  ∀ id : String, id ∈ up ↔ ∃ c, lookupA sc id = some c ∧ c.processed_at = none

/-- Spec invariant I4 on a full replica state. -/
def unprocessed_inv (store : Store) (s : IndexifyState) : Prop :=
  sc_inv store.stateChanges s.unprocessed_state_changes

/-- Spec invariant I2: a task id appears in `unfinished_tasks_by_extractor[e]`
iff its persisted record exists with extractor `e` and a non-terminal
outcome. -/
def unfinished_matches_outcome (store : Store) (s : IndexifyState) : Prop :=
  ∀ e tid, tid ∈ (lookupA s.unfinished_tasks_by_extractor e).getD [] ↔
    ∃ t, lookupA store.tasks tid = some t ∧ t.extractor = e ∧
      t.outcome.is_terminal = false

/-- Well-formed incoming state changes: freshly emitted changes are pending
(spec §3.1 `StateChanges` lifecycle, §4.6 `Pending → Processed`). -/
def state_changes_wf (changes : List StateChange) : Prop :=
  ∀ c ∈ changes, c.processed_at = none

/-- Insertion of a string into a ≤-sorted list of strings. -/
def insertSorted (x : String) : List String → List String
  | [] => [x]
  | y :: ys => if x ≤ y then x :: y :: ys else y :: insertSorted x ys

/-- Sorting a list of strings, for canonical set encoding. -/
def sortS (xs : List String) : List String := xs.foldr insertSorted []

/-- Insertion of a keyed pair into a list sorted by key. -/
def insertSortedKV {V : Type} (p : String × V) :
    List (String × V) → List (String × V)
  | [] => [p]
  | q :: qs => if p.1 ≤ q.1 then p :: q :: qs else q :: insertSortedKV p qs

/-- Sorting an association list by key, for canonical column encoding. -/
def sortByKey {V : Type} (m : AList V) : AList V := m.foldr insertSortedKV []

/-- Modelled from the spec: the codec (component A, §4.1, §6) lives in
`serializer.rs`, which is not part of this repository's sources.  The spec
requires a canonical encoding — stable field ordering, and stable bytes for
set-valued and map-valued fields — so sets and maps are encoded sorted.
Encoded bytes are modelled as `String`. -/
def encode_id_set (xs : List String) : String :=
  "[" ++ String.intercalate "," (sortS xs) ++ "]"

/-- Canonical encoding of an `Option Nat` field. -/
def encOptNat : Option Nat → String
  | none => "null"
  | some n => toString n

/-- Canonical encoding of a string-keyed `Nat` map, sorted by key. -/
def encode_nat_map (m : AList Nat) : String :=
  "[" ++ String.intercalate ","
    ((sortByKey m).map (fun p => p.1 ++ ":" ++ toString p.2)) ++ "]"

/-- Canonical encoding of a `StateChange` record. -/
def encStateChange (c : StateChange) : String :=
  c.id ++ "|" ++ c.kind ++ "|" ++ c.payload ++ "|" ++ toString c.created_at ++
    "|" ++ encOptNat c.processed_at

/-- Canonical encoding of a `Task` record. -/
def encTask (t : Task) : String :=
  t.id ++ "|" ++ t.extractor ++ "|" ++ t.nspace ++ "|" ++ t.content_id ++ "|" ++
    (match t.outcome with
     | .Unknown => "Unknown"
     | .Success => "Success"
     | .Failure => "Failure")

/-- Canonical encoding of a `ContentMetadata` record. -/
def encContent (c : ContentMetadata) : String := c.id ++ "|" ++ c.nspace

/-- Canonical encoding of an `ExtractorDescription` record. -/
def encExtractor (x : ExtractorDescription) : String := x.name ++ "|" ++ x.description

/-- Canonical encoding of an `ExecutorMetadata` record. -/
def encExecutor (e : ExecutorMetadata) : String :=
  e.id ++ "|" ++ toString e.last_seen ++ "|" ++ e.addr ++ "|" ++ encExtractor e.extractor

/-- Canonical encoding of an `ExtractionPolicy` record. -/
def encPolicy (p : ExtractionPolicy) : String :=
  p.id ++ "|" ++ p.nspace ++ "|" ++ p.name ++ "|" ++ p.extractor

/-- Canonical encoding of a `StructuredDataSchema` record. -/
def encSchema (s : StructuredDataSchema) : String :=
  s.id ++ "|" ++ s.nspace ++ "|" ++ s.columns

/-- Canonical encoding of an `Index` record. -/
def encIndex (i : Index) : String := i.name ++ "|" ++ i.table_name

/-- Canonical encoding of a `ContentExtractionPolicyMapping` record; the
hash-set and hash-map fields are encoded sorted. -/
def encMapping (m : ContentExtractionPolicyMapping) : String :=
  m.content_id ++ "|" ++ encode_id_set m.extraction_policy_names ++ "|" ++
    encode_nat_map m.time_of_policy_completion

/-- Canonical encoding of one column: keys sorted, each record encoded. -/
def encColumn {V : Type} (enc : V → String) (m : AList V) :
    List (String × String) :=
  (sortByKey m).map (fun p => (p.1, enc p.2))

/-- The canonical key/value bytes of all eleven persisted columns. -/
def encodeStore (st : Store) : List (List (String × String)) :=
  [encColumn encStateChange st.stateChanges,
   encColumn encTask st.tasks,
   encColumn encode_id_set st.taskAssignments,
   encColumn encExecutor st.executors,
   encColumn encExtractor st.extractors,
   encColumn encContent st.contentTable,
   encColumn encPolicy st.extractionPolicies,
   encColumn id st.namespaces,
   encColumn encSchema st.structuredDataSchemas,
   encColumn encIndex st.indexTable,
   encColumn encMapping st.policiesAppliedOnContent]

/-- The extractor of the spec's §8 scenarios. -/
def extractorX : ExtractorDescription := ⟨"X", ""⟩

/-- Task T1 of the §8 scenarios, not yet finished. -/
def task1 : Task := ⟨"T1", "X", "ns", "C0", .Unknown⟩

/-- Task T2 of the §8 scenarios. -/
def task2 : Task := ⟨"T2", "X", "ns", "C0", .Unknown⟩

/-- Task T1 with the terminal outcome `Success`. -/
def task1done : Task := ⟨"T1", "X", "ns", "C0", .Success⟩

/-- Scenario request: register executor E1 of extractor X. -/
def reqRegister : StateMachineUpdateRequest :=
  ⟨[], [], .RegisterExecutor "1.2.3.4:9000" "E1" extractorX 100⟩

/-- Scenario request: create task T1. -/
def reqCreate1 : StateMachineUpdateRequest := ⟨[], [], .CreateTasks [task1]⟩

/-- Scenario request: create tasks T1 and T2. -/
def reqCreate2 : StateMachineUpdateRequest := ⟨[], [], .CreateTasks [task1, task2]⟩

/-- Scenario request: assign T1 to E1. -/
def reqAssign1 : StateMachineUpdateRequest := ⟨[], [], .AssignTask [("T1", "E1")]⟩

/-- Scenario request: assign T1 and T2 to E1. -/
def reqAssign2 : StateMachineUpdateRequest :=
  ⟨[], [], .AssignTask [("T1", "E1"), ("T2", "E1")]⟩

/-- Scenario request: finish T1 on E1 (spec §8 scenario 4). -/
def reqFinish1 : StateMachineUpdateRequest :=
  ⟨[], [], .UpdateTask task1done true (some "E1") []⟩

/-- Replica state after registering E1, creating T1 and T2, and assigning
both to E1 (spec §8 scenarios 1-3). -/
def scen3 : Store × IndexifyState :=
  (runSeq freshPair [reqRegister, reqCreate2, reqAssign2]).toOption.getD freshPair

/-- Replica state after additionally finishing T1 (spec §8 scenario 4). -/
def scen4 : Store × IndexifyState :=
  (runSeq freshPair [reqRegister, reqCreate2, reqAssign2, reqFinish1]).toOption.getD
    freshPair

/-- The outcome of dispatching scenario 4's `UpdateTask` from the scenario-3
state when the commit fails. -/
def c1fail : Except StateMachineError Unit × Store × IndexifyState :=
  apply_state_machine_updates false scen3.1 scen3.2 reqFinish1

/-- Replica state after assigning T1 to E1 once. -/
def c3once : Store × IndexifyState :=
  (runSeq freshPair [reqRegister, reqCreate1, reqAssign1]).toOption.getD freshPair

/-- Replica state after assigning T1 to E1 twice, in two requests. -/
def c3twice : Store × IndexifyState :=
  (runSeq freshPair [reqRegister, reqCreate1, reqAssign1, reqAssign1]).toOption.getD
    freshPair

/-- A pending state change c1 carried by a `RemoveExecutor` request. -/
def change1 : StateChange := ⟨"c1", "ExecutorRemoved", "E1", 1, none⟩

/-- A `RemoveExecutor` request for E1 carrying the new state change c1. -/
def reqRemoveWithChange : StateMachineUpdateRequest :=
  ⟨[change1], [], .RemoveExecutor "E1"⟩

/-- Replica state after registering E1 and removing it with an attached new
state change. -/
def c6run : Except StateMachineError (Store × IndexifyState) :=
  runSeq freshPair [reqRegister, reqRemoveWithChange]

/-- Replica state of the run behind `c6run`. -/
def c6res : Store × IndexifyState := c6run.toOption.getD freshPair

/-- A successful `UpdateTask` that persists the terminal outcome of T1 but
does not set `mark_finished`. -/
def reqUpdateNotFinished : StateMachineUpdateRequest :=
  ⟨[], [], .UpdateTask task1done false none []⟩

/-- The run refuting claim C9: create T1, then persist its terminal outcome
with `mark_finished = false`. -/
def c9run : Except StateMachineError (Store × IndexifyState) :=
  runSeq freshPair [reqCreate1, reqUpdateNotFinished]

/-- Replica state of the run behind `c9run`. -/
def c9res : Store × IndexifyState := c9run.toOption.getD freshPair

/-- The outcome of a `MarkExtractionPolicyAppliedOnContent` request against
a fresh store, where no mapping record exists for the content id. -/
def c8fail : Except StateMachineError Unit × Store × IndexifyState :=
  apply_state_machine_updates true Store.empty IndexifyState.empty
    ⟨[], [], .MarkExtractionPolicyAppliedOnContent "c1" "p1" 5⟩

/-- A bare `AssignTask` request assigning one task to one executor. -/
def assignReq (tid eid : String) : StateMachineUpdateRequest :=
  ⟨[], [], .AssignTask [(tid, eid)]⟩

/-- A bare `RegisterExecutor` request. -/
def registerReq (addr eid : String) (ext : ExtractorDescription) (ts : Nat) :
    StateMachineUpdateRequest :=
  ⟨[], [], .RegisterExecutor addr eid ext ts⟩

/-- A bare `UpdateTask` request. -/
def updateReq (task : Task) (mark_finished : Bool) (executor_id : Option String)
    (content_metadata : List ContentMetadata) : StateMachineUpdateRequest :=
  ⟨[], [], .UpdateTask task mark_finished executor_id content_metadata⟩

/-- A bare `MarkExtractionPolicyAppliedOnContent` request. -/
def markPolicyReq (content_id extraction_policy_name : String)
    (policy_completion_time : Nat) : StateMachineUpdateRequest :=
  ⟨[], [], .MarkExtractionPolicyAppliedOnContent content_id extraction_policy_name
    policy_completion_time⟩

theorem lookupA_insertA {V : Type} (m : AList V) (key : String) (v : V) (q : String) :
    lookupA (insertA m key v) q = if key = q then some v else lookupA m q := by
  induction m with
  | nil => simp [insertA, lookupA]
  | cons hd tl ih =>
    obtain ⟨k, w⟩ := hd
    by_cases hk : k = key
    · subst hk
      by_cases hq : k = q <;> simp [insertA, lookupA, hq]
    · by_cases hq : k = q
      · subst hq
        have : ¬ key = k := fun h => hk h.symm
        simp [insertA, lookupA, hk, this]
      · simp [insertA, lookupA, hk, hq, ih]

theorem lookupA_eraseA {V : Type} (m : AList V) (key q : String) :
    lookupA (eraseA m key) q = if key = q then none else lookupA m q := by
  induction m with
  | nil => simp [eraseA, lookupA]
  | cons hd tl ih =>
    obtain ⟨k, w⟩ := hd
    by_cases hk : k = key
    · subst hk
      by_cases hq : k = q
      · subst hq
        simpa [eraseA] using ih
      · simp [eraseA, lookupA, hq, ih]
    · by_cases hq : k = q
      · subst hq
        have : ¬ key = k := fun h => hk h.symm
        simp [eraseA, lookupA, hk, this]
      · simp [eraseA, lookupA, hk, hq, ih]

theorem insertA_insertA {V : Type} (m : AList V) (key : String) (v w : V) :
    insertA (insertA m key v) key w = insertA m key w := by
  induction m with
  | nil => simp [insertA]
  | cons hd tl ih =>
    obtain ⟨k, u⟩ := hd
    by_cases hk : k = key <;> simp [insertA, hk, ih]

theorem mem_insertS (xs : List String) (x y : String) :
    y ∈ insertS xs x ↔ y ∈ xs ∨ y = x := by
  by_cases h : x ∈ xs
  · simp only [insertS, if_pos h]
    exact ⟨Or.inl, fun hy => hy.elim (fun hy => hy) (fun hy => hy ▸ h)⟩
  · simp [insertS, if_neg h]

theorem mem_removeS (xs : List String) (x y : String) :
    y ∈ removeS xs x ↔ y ∈ xs ∧ y ≠ x := by
  simp [removeS, List.mem_filter]

theorem insertS_of_mem {xs : List String} {x : String} (h : x ∈ xs) :
    insertS xs x = xs := by
  simp [insertS, h]

theorem insertS_insertS (xs : List String) (x : String) :
    insertS (insertS xs x) x = insertS xs x :=
  insertS_of_mem ((mem_insertS xs x x).mpr (Or.inr rfl))

theorem mem_foldl_insert_key {α : Type} (f : α → String) (l : List α)
    (acc : List String) (x : String) :
    x ∈ l.foldl (fun u a => insertS u (f a)) acc ↔ x ∈ acc ∨ ∃ a ∈ l, f a = x := by
  induction l generalizing acc with
  | nil => simp
  | cons hd tl ih =>
    simp only [List.foldl_cons, ih, mem_insertS, List.mem_cons]
    constructor
    · rintro ((h | h) | ⟨a, ha, rfl⟩)
      · exact Or.inl h
      · exact Or.inr ⟨hd, Or.inl rfl, h.symm⟩
      · exact Or.inr ⟨a, Or.inr ha, rfl⟩
    · rintro (h | ⟨a, (rfl | ha), rfl⟩)
      · exact Or.inl (Or.inl h)
      · exact Or.inl (Or.inr rfl)
      · exact Or.inr ⟨a, ha, rfl⟩

theorem mem_foldl_remove_key {α : Type} (f : α → String) (l : List α)
    (acc : List String) (x : String) :
    x ∈ l.foldl (fun u a => removeS u (f a)) acc ↔
      x ∈ acc ∧ ∀ a ∈ l, f a ≠ x := by
  induction l generalizing acc with
  | nil => simp
  | cons hd tl ih =>
    simp only [List.foldl_cons, ih, mem_removeS, List.mem_cons]
    constructor
    · rintro ⟨⟨hacc, hhd⟩, htl⟩
      refine ⟨hacc, fun a ha => ?_⟩
      rcases ha with rfl | ha
      · exact hhd.symm
      · exact htl a ha
    · rintro ⟨hacc, hall⟩
      exact ⟨⟨hacc, (hall hd (Or.inl rfl)).symm⟩, fun a ha => hall a (Or.inr ha)⟩

theorem mem_foldl_insertS (l : List String) (acc : List String) (x : String) :
    x ∈ l.foldl insertS acc ↔ x ∈ acc ∨ x ∈ l := by
  have h := mem_foldl_insert_key (fun a => a) l acc x
  simpa using h

theorem sp_err_of_missing {scp : List StateChangeProcessed} {e : StateChangeProcessed}
    (he : e ∈ scp) : ∀ {sc : AList StateChange},
    lookupA sc e.state_change_id = none →
    set_processed_state_changes sc scp =
      .error (.DatabaseError "State change not found") := by
  induction scp with
  | nil => cases he
  | cons hd tl ih =>
    intro sc hm
    rcases List.mem_cons.mp he with rfl | htl
    · simp [set_processed_state_changes, hm]
    · cases hc : lookupA sc hd.state_change_id with
      | none => simp [set_processed_state_changes, hc]
      | some ch =>
        have hne : hd.state_change_id ≠ e.state_change_id := by
          intro h
          rw [h, hm] at hc
          cases hc
        have hm' : lookupA (insertA sc hd.state_change_id
            { ch with processed_at := some hd.processed_at }) e.state_change_id = none := by
          rw [lookupA_insertA]
          simp [hne, hm]
        simp [set_processed_state_changes, hc, ih htl hm']

theorem sp_keys {scp : List StateChangeProcessed} :
    ∀ {sc sc' : AList StateChange},
    set_processed_state_changes sc scp = .ok sc' →
    ∀ id, (lookupA sc' id = none ↔ lookupA sc id = none) := by
  induction scp with
  | nil =>
    intro sc sc' h id
    simp [set_processed_state_changes] at h
    subst h
    rfl
  | cons hd tl ih =>
    intro sc sc' h id
    cases hc : lookupA sc hd.state_change_id with
    | none => simp [set_processed_state_changes, hc] at h
    | some ch =>
      simp only [set_processed_state_changes, hc] at h
      have h1 := ih h id
      rw [h1, lookupA_insertA]
      by_cases hq : hd.state_change_id = id
      · subst hq
        simp [hc]
      · simp [hq]

theorem sp_untouched {scp : List StateChangeProcessed} :
    ∀ {sc sc' : AList StateChange},
    set_processed_state_changes sc scp = .ok sc' →
    ∀ id, (∀ e ∈ scp, e.state_change_id ≠ id) →
    lookupA sc' id = lookupA sc id := by
  induction scp with
  | nil =>
    intro sc sc' h id _
    simp [set_processed_state_changes] at h
    subst h
    rfl
  | cons hd tl ih =>
    intro sc sc' h id hid
    cases hc : lookupA sc hd.state_change_id with
    | none => simp [set_processed_state_changes, hc] at h
    | some ch =>
      simp only [set_processed_state_changes, hc] at h
      have h1 := ih h id (fun e he => hid e (List.mem_cons_of_mem _ he))
      rw [h1, lookupA_insertA]
      simp [hid hd (List.mem_cons_self _ _)]

theorem sp_sets {scp : List StateChangeProcessed} :
    ∀ {sc sc' : AList StateChange},
    set_processed_state_changes sc scp = .ok sc' →
    (scp.map (fun e => e.state_change_id)).Nodup →
    ∀ e ∈ scp, ∃ c, lookupA sc' e.state_change_id = some c ∧
      c.processed_at = some e.processed_at := by
  induction scp with
  | nil =>
    intro sc sc' _ _ e he
    cases he
  | cons hd tl ih =>
    intro sc sc' h hnd e he
    cases hc : lookupA sc hd.state_change_id with
    | none => simp [set_processed_state_changes, hc] at h
    | some ch =>
      simp only [set_processed_state_changes, hc] at h
      simp only [List.map_cons, List.nodup_cons] at hnd
      rcases List.mem_cons.mp he with rfl | htl
      · have hnot : ∀ f ∈ tl, f.state_change_id ≠ e.state_change_id := by
          intro f hf hfe
          exact hnd.1 (hfe ▸ List.mem_map_of_mem (fun x => x.state_change_id) hf)
        have := sp_untouched h e.state_change_id hnot
        rw [this, lookupA_insertA, if_pos rfl]
        exact ⟨_, rfl, rfl⟩
      · exact ih h hnd.2 e htl

theorem sp_ok_of_present {scp : List StateChangeProcessed} :
    ∀ {sc : AList StateChange},
    (∀ e ∈ scp, (lookupA sc e.state_change_id).isSome) →
    ∃ sc', set_processed_state_changes sc scp = .ok sc' := by
  induction scp with
  | nil =>
    intro sc _
    exact ⟨sc, rfl⟩
  | cons hd tl ih =>
    intro sc hall
    cases hc : lookupA sc hd.state_change_id with
    | none =>
      have := hall hd (List.mem_cons_self _ _)
      rw [hc] at this
      cases this
    | some ch =>
      have hall' : ∀ e ∈ tl, (lookupA (insertA sc hd.state_change_id
          { ch with processed_at := some hd.processed_at }) e.state_change_id).isSome := by
        intro e he
        rw [lookupA_insertA]
        by_cases hq : hd.state_change_id = e.state_change_id
        · simp [hq]
        · simpa [hq] using hall e (List.mem_cons_of_mem _ he)
      obtain ⟨sc', h⟩ := ih hall'
      exact ⟨sc', by simp [set_processed_state_changes, hc, h]⟩

theorem sp_inv {scp : List StateChangeProcessed} :
    ∀ {sc sc' : AList StateChange} {up : List String},
    sc_inv sc up →
    set_processed_state_changes sc scp = .ok sc' →
    sc_inv sc' (scp.foldl (fun u c => removeS u c.state_change_id) up) := by
  induction scp with
  | nil =>
    intro sc sc' up hinv h
    simp [set_processed_state_changes] at h
    subst h
    exact hinv
  | cons hd tl ih =>
    intro sc sc' up hinv h
    cases hc : lookupA sc hd.state_change_id with
    | none => simp [set_processed_state_changes, hc] at h
    | some ch =>
      simp only [set_processed_state_changes, hc] at h
      refine ih ?_ h
      intro id
      rw [mem_removeS, lookupA_insertA]
      by_cases hq : hd.state_change_id = id
      · subst hq
        simp
      · rw [if_neg hq, hinv id]
        have : id ≠ hd.state_change_id := fun he => hq he.symm
        simp [this]

theorem sn_inv {ncs : List StateChange} :
    ∀ {sc : AList StateChange} {up : List String},
    sc_inv sc up →
    state_changes_wf ncs →
    sc_inv (set_new_state_changes sc ncs)
      (ncs.foldl (fun u change => insertS u change.id) up) := by
  induction ncs with
  | nil =>
    intro sc up hinv _
    exact hinv
  | cons hd tl ih =>
    intro sc up hinv hwf
    simp only [set_new_state_changes, List.foldl_cons]
    refine ih ?_ (fun c hc => hwf c (List.mem_cons_of_mem _ hc))
    intro id
    rw [mem_insertS, lookupA_insertA]
    by_cases hq : hd.id = id
    · subst hq
      simp [hwf hd (List.mem_cons_self _ _)]
    · rw [if_neg hq, hinv id]
      have : ¬ id = hd.id := fun he => hq he.symm
      simp [this]

theorem foldl_pres {α β : Type} (g : IndexifyState → β)
    (f : IndexifyState → α → IndexifyState)
    (hf : ∀ s a, g (f s a) = g s) :
    ∀ (l : List α) (s : IndexifyState), g (l.foldl f s) = g s := by
  intro l
  induction l with
  | nil => intro s; rfl
  | cons hd tl ih =>
    intro s
    rw [List.foldl_cons, ih, hf]

theorem foldl_mark_unprocessed (l : List StateChangeProcessed) :
    ∀ s : IndexifyState,
    (l.foldl mark_state_changes_processed s).unprocessed_state_changes =
      l.foldl (fun u c => removeS u c.state_change_id) s.unprocessed_state_changes := by
  induction l with
  | nil => intro s; rfl
  | cons hd tl ih =>
    intro s
    rw [List.foldl_cons, List.foldl_cons, ih]
    rfl

theorem foldl_mark_pres {β : Type} (g : IndexifyState → β)
    (hg : ∀ (s : IndexifyState) (up : List String),
      g { s with unprocessed_state_changes := up } = g s) :
    ∀ (l : List StateChangeProcessed) (s : IndexifyState),
    g (l.foldl mark_state_changes_processed s) = g s := by
  intro l
  refine foldl_pres g mark_state_changes_processed ?_ l
  intro s a
  exact hg s _

theorem asmu_assign (store : Store) (s : IndexifyState) (tid eid : String) :
    apply_state_machine_updates true store s (assignReq tid eid) =
      (.ok (),
       { store with
         taskAssignments :=
           insertA store.taskAssignments eid
             (insertS ((lookupA store.taskAssignments eid).getD []) tid) },
       { s with
         unassigned_tasks := removeS s.unassigned_tasks tid,
         executor_running_task_count :=
           insertA s.executor_running_task_count eid
             ((lookupA s.executor_running_task_count eid).getD 0 + 1) }) := rfl

theorem asmu_register (store : Store) (s : IndexifyState) (addr eid : String)
    (ext : ExtractorDescription) (ts : Nat) :
    apply_state_machine_updates true store s (registerReq addr eid ext ts) =
      (.ok (),
       { store with
         executors := insertA store.executors eid ⟨eid, ts, addr, ext⟩,
         extractors := insertA store.extractors ext.name ext },
       { s with
         extractor_executors_table :=
           insertA s.extractor_executors_table ext.name
             (insertS ((lookupA s.extractor_executors_table ext.name).getD []) eid),
         executor_running_task_count := insertA s.executor_running_task_count eid 0 }) := rfl

theorem update_ok (store : Store) (s : IndexifyState) (task : Task) (mf : Bool)
    (eidOpt : Option String) (cm : List ContentMetadata) :
    (apply_state_machine_updates true store s (updateReq task mf eidOpt cm)).1 = .ok () := by
  cases mf <;> cases eidOpt <;> rfl

theorem update_true_unfinished (store : Store) (s : IndexifyState) (task : Task)
    (eidOpt : Option String) (cm : List ContentMetadata) :
    (apply_state_machine_updates true store s
        (updateReq task true eidOpt cm)).2.2.unfinished_tasks_by_extractor =
      updEntry s.unfinished_tasks_by_extractor task.extractor
        (fun ts => removeS ts task.id) := by
  cases eidOpt with
  | none =>
    show (cm.foldl create_content_reverse _).unfinished_tasks_by_extractor = _
    rw [foldl_pres (fun st => st.unfinished_tasks_by_extractor) create_content_reverse
      (fun st a => rfl)]
    rfl
  | some eid =>
    show (cm.foldl create_content_reverse _).unfinished_tasks_by_extractor = _
    rw [foldl_pres (fun st => st.unfinished_tasks_by_extractor) create_content_reverse
      (fun st a => rfl)]
    rfl

theorem update_false_unfinished (store : Store) (s : IndexifyState) (task : Task)
    (eidOpt : Option String) (cm : List ContentMetadata) :
    (apply_state_machine_updates true store s
        (updateReq task false eidOpt cm)).2.2.unfinished_tasks_by_extractor =
      s.unfinished_tasks_by_extractor := by
  cases eidOpt with
  | none =>
    show (cm.foldl create_content_reverse _).unfinished_tasks_by_extractor = _
    rw [foldl_pres (fun st => st.unfinished_tasks_by_extractor) create_content_reverse
      (fun st a => rfl)]
    rfl
  | some eid =>
    show (cm.foldl create_content_reverse _).unfinished_tasks_by_extractor = _
    rw [foldl_pres (fun st => st.unfinished_tasks_by_extractor) create_content_reverse
      (fun st a => rfl)]
    rfl

/-- C1: a `StateMachineUpdateRequest` whose processing fails can nevertheless
change a reverse index.  Evaluation of the code at the failing input: from
the state reached by registering E1, creating T1 and T2, and assigning both
to E1 (where `executor_running_task_count["E1"] = 2`), dispatching scenario
4's `UpdateTask` with a failing commit returns the commit error and leaves
the persisted store untouched, yet `executor_running_task_count["E1"]` has
been decremented to 1 — the source decrements it inside the transaction
body, before the commit. -/
theorem C1_failed_request_mutates_running_count :
    c1fail.1 = .error (.TransactionError "commit failed") ∧
    c1fail.2.1 = scen3.1 ∧
    lookupA scen3.2.executor_running_task_count "E1" = some 2 ∧
    lookupA c1fail.2.2.executor_running_task_count "E1" = some 1 :=
  ⟨rfl, rfl, rfl, rfl⟩

/-- C2: evaluation of the code at the failing input.  After the spec's §8
scenarios 1-4 (register E1, create T1 and T2, assign both, then one
successful `UpdateTask` finishing T1 on E1), the persisted set
`TaskAssignments["E1"]` is `{T2}` (cardinality 1) but the in-memory count
`executor_running_task_count["E1"]` is 0: the single `UpdateTask`
decremented the count twice (once inside the transaction body, once in
`apply`), in divergence from the claimed invariant `count = |assignments|`
and from the claimed exactly-one decrement. -/
theorem C2_update_task_double_decrement :
    (runSeq freshPair [reqRegister, reqCreate2, reqAssign2, reqFinish1]).isOk = true ∧
    lookupA scen3.2.executor_running_task_count "E1" = some 2 ∧
    (lookupA scen4.1.taskAssignments "E1").getD [] = ["T2"] ∧
    lookupA scen4.2.executor_running_task_count "E1" = some 0 :=
  ⟨rfl, rfl, rfl, rfl⟩

/-- C3: counterexample.  Registering E1, creating T1, and then assigning T1
to E1 twice in two successful requests leaves `TaskAssignments["E1"]` equal
to the single-assignment result, but `executor_running_task_count["E1"]` is
2, not 1: the count is incremented once per assignment request, not once per
distinct task id. -/
theorem C3_duplicate_assign_over_increments :
    lookupA c3twice.1.taskAssignments "E1" = lookupA c3once.1.taskAssignments "E1" ∧
    lookupA c3once.2.executor_running_task_count "E1" = some 1 ∧
    lookupA c3twice.2.executor_running_task_count "E1" = some 2 ∧
    lookupA c3twice.2.executor_running_task_count "E1" ≠ some 1 :=
  ⟨rfl, rfl, rfl, by decide⟩

/-- C3 (amended): from any state, assigning the same `(task_id, executor_id)`
pair in two successive successful `AssignTask` requests leaves the persisted
`TaskAssignments[executor_id]` equal to the single-assignment result, while
`executor_running_task_count[executor_id]` is incremented once per request —
by one after the first request and by two after the second. -/
theorem C3_assign_twice_amended (store : Store) (s : IndexifyState) (tid eid : String) :
    (apply_state_machine_updates true store s (assignReq tid eid)).1 = .ok () ∧
    (apply_state_machine_updates true
        (apply_state_machine_updates true store s (assignReq tid eid)).2.1
        (apply_state_machine_updates true store s (assignReq tid eid)).2.2
        (assignReq tid eid)).1 = .ok () ∧
    lookupA (apply_state_machine_updates true
        (apply_state_machine_updates true store s (assignReq tid eid)).2.1
        (apply_state_machine_updates true store s (assignReq tid eid)).2.2
        (assignReq tid eid)).2.1.taskAssignments eid =
      lookupA (apply_state_machine_updates true store s (assignReq tid eid)).2.1.taskAssignments eid ∧
    lookupA (apply_state_machine_updates true store s
        (assignReq tid eid)).2.2.executor_running_task_count eid =
      some ((lookupA s.executor_running_task_count eid).getD 0 + 1) ∧
    lookupA (apply_state_machine_updates true
        (apply_state_machine_updates true store s (assignReq tid eid)).2.1
        (apply_state_machine_updates true store s (assignReq tid eid)).2.2
        (assignReq tid eid)).2.2.executor_running_task_count eid =
      some ((lookupA s.executor_running_task_count eid).getD 0 + 2) := by
  rw [asmu_assign]
  rw [asmu_assign]
  refine ⟨rfl, rfl, ?_, ?_, ?_⟩ <;>
    simp [lookupA_insertA, insertA_insertA, insertS_insertS]

/-- C9: counterexample.  Create T1 (outcome `Unknown`), then a successful
`UpdateTask` persists T1 with the terminal outcome `Success` but
`mark_finished = false`: the persisted record is terminal for extractor X,
yet T1 is still in `unfinished_tasks_by_extractor["X"]` — membership is
governed by the `mark_finished` flag, not by the persisted outcome. -/
theorem C9_terminal_task_stays_unfinished :
    c9run.isOk = true ∧
    (lookupA c9res.1.tasks "T1").map (fun t => t.outcome.is_terminal) = some true ∧
    (lookupA c9res.1.tasks "T1").map (fun t => t.extractor) = some "X" ∧
    "T1" ∈ (lookupA c9res.2.unfinished_tasks_by_extractor "X").getD [] ∧
    ¬ unfinished_matches_outcome c9res.1 c9res.2 := by
  refine ⟨rfl, rfl, rfl, by decide, ?_⟩
  intro h
  obtain ⟨t, ht, _, hterm⟩ := (h "X" "T1").mp (by decide)
  have hl : lookupA c9res.1.tasks "T1" = some task1done := rfl
  rw [hl] at ht
  obtain rfl := Option.some.inj ht
  exact Bool.noConfusion hterm

/-- C9 (amended): membership of a task in `unfinished_tasks_by_extractor` is
governed by the `mark_finished` flag of `UpdateTask`, not by the task's
outcome: from any state, a successful `UpdateTask` with
`mark_finished = true` leaves the task id out of
`unfinished_tasks_by_extractor[task.extractor]`, and one with
`mark_finished = false` leaves the whole table unchanged, whatever the
task's persisted outcome. -/
theorem C9_unfinished_follows_mark_finished (store : Store) (s : IndexifyState)
    (task : Task) (eidOpt : Option String) (cm : List ContentMetadata) :
    (apply_state_machine_updates true store s (updateReq task true eidOpt cm)).1 = .ok () ∧
    (apply_state_machine_updates true store s (updateReq task false eidOpt cm)).1 = .ok () ∧
    task.id ∉ (lookupA (apply_state_machine_updates true store s
        (updateReq task true eidOpt cm)).2.2.unfinished_tasks_by_extractor
        task.extractor).getD [] ∧
    (apply_state_machine_updates true store s
        (updateReq task false eidOpt cm)).2.2.unfinished_tasks_by_extractor =
      s.unfinished_tasks_by_extractor := by
  refine ⟨update_ok store s task true eidOpt cm, update_ok store s task false eidOpt cm,
    ?_, update_false_unfinished store s task eidOpt cm⟩
  rw [update_true_unfinished]
  unfold updEntry
  rw [lookupA_insertA, if_pos rfl]
  intro hmem
  exact ((mem_removeS _ _ _).mp hmem).2 rfl

/-- C10: a second successful `RegisterExecutor` for an already-registered
executor id overwrites the persisted executor record with the new
`addr`/`last_seen`/`extractor` values and unconditionally resets
`executor_running_task_count[executor_id]` to 0, whatever the current
contents of `TaskAssignments[executor_id]`. -/
theorem C10_reregister_overwrites_and_resets (store : Store) (s : IndexifyState)
    (addr eid : String) (ext : ExtractorDescription) (ts : Nat)
    (old : ExecutorMetadata) (_hreg : lookupA store.executors eid = some old) :
    (apply_state_machine_updates true store s (registerReq addr eid ext ts)).1 = .ok () ∧
    lookupA (apply_state_machine_updates true store s
        (registerReq addr eid ext ts)).2.1.executors eid = some ⟨eid, ts, addr, ext⟩ ∧
    lookupA (apply_state_machine_updates true store s
        (registerReq addr eid ext ts)).2.2.executor_running_task_count eid = some 0 := by
  rw [asmu_register]
  refine ⟨rfl, ?_, ?_⟩ <;> simp [lookupA_insertA]

/-- C10 witness: a concrete already-registered executor E1 with a non-empty
persisted assignment set, re-registered with a fresh timestamp. -/
theorem C10_reregister_overwrites_and_resets_witness :
    lookupA { Store.empty with
        executors := [("E1", ⟨"E1", 100, "a", extractorX⟩)],
        taskAssignments := [("E1", ["T1"])] }.executors "E1" =
      some ⟨"E1", 100, "a", extractorX⟩ ∧
    lookupA (apply_state_machine_updates true
        { Store.empty with
          executors := [("E1", ⟨"E1", 100, "a", extractorX⟩)],
          taskAssignments := [("E1", ["T1"])] }
        IndexifyState.empty (registerReq "b" "E1" extractorX 200)).2.2.executor_running_task_count
        "E1" = some 0 :=
  ⟨rfl,
   (C10_reregister_overwrites_and_resets
     { Store.empty with
       executors := [("E1", ⟨"E1", 100, "a", extractorX⟩)],
       taskAssignments := [("E1", ["T1"])] }
     IndexifyState.empty "b" "E1" extractorX 200 ⟨"E1", 100, "a", extractorX⟩ rfl).2.2⟩

theorem asmu_remove_found (store : Store) (s : IndexifyState) (eid : String)
    (ncs : List StateChange) (scp : List StateChangeProcessed)
    (txsc : AList StateChange) (meta : ExecutorMetadata)
    (hsp : set_processed_state_changes (set_new_state_changes store.stateChanges ncs)
      scp = .ok txsc)
    (hmeta : lookupA store.executors eid = some meta) :
    apply_state_machine_updates true store s ⟨ncs, scp, .RemoveExecutor eid⟩ =
      (.ok (),
       { store with
         stateChanges := txsc,
         executors := eraseA store.executors eid,
         taskAssignments := eraseA store.taskAssignments eid },
       { s with
         extractor_executors_table :=
           insertA s.extractor_executors_table meta.extractor.name
             (removeS ((lookupA s.extractor_executors_table meta.extractor.name).getD [])
               meta.id),
         unassigned_tasks :=
           ((lookupA store.taskAssignments eid).getD []).foldl insertS s.unassigned_tasks,
         executor_running_task_count := eraseA s.executor_running_task_count eid }) := by
  simp only [apply_state_machine_updates, hsp, delete_executor, hmeta,
    delete_task_assignments_for_executor, updEntry, if_true]

theorem asmu_remove_missing (store : Store) (s : IndexifyState) (eid : String)
    (ncs : List StateChange) (scp : List StateChangeProcessed)
    (txsc : AList StateChange)
    (hsp : set_processed_state_changes (set_new_state_changes store.stateChanges ncs)
      scp = .ok txsc)
    (hmeta : lookupA store.executors eid = none) :
    apply_state_machine_updates true store s ⟨ncs, scp, .RemoveExecutor eid⟩ =
      (.error (.DatabaseError ("Executor " ++ eid ++ " not found")), store, s) := by
  simp only [apply_state_machine_updates, hsp, delete_executor, hmeta]

/-- C5: a successful `RemoveExecutor{executor_id}` deletes the executor
record and its `TaskAssignments` key, removes the executor id from
`extractor_executors_table` under the extractor name read from the deleted
record, re-inserts every freed task id into `unassigned_tasks`, and removes
the executor's key from `executor_running_task_count`; when the executor
record is absent the request fails with the "Executor ... not found"
database error and both the store and the reverse indexes are unchanged. -/
theorem C5_remove_executor (store : Store) (s : IndexifyState) (eid : String)
    (ncs : List StateChange) (scp : List StateChangeProcessed)
    (txsc : AList StateChange)
    (hsp : set_processed_state_changes (set_new_state_changes store.stateChanges ncs)
      scp = .ok txsc) :
    (∀ meta, lookupA store.executors eid = some meta →
      (apply_state_machine_updates true store s ⟨ncs, scp, .RemoveExecutor eid⟩).1 =
        .ok () ∧
      lookupA (apply_state_machine_updates true store s
        ⟨ncs, scp, .RemoveExecutor eid⟩).2.1.executors eid = none ∧
      lookupA (apply_state_machine_updates true store s
        ⟨ncs, scp, .RemoveExecutor eid⟩).2.1.taskAssignments eid = none ∧
      meta.id ∉ (lookupA (apply_state_machine_updates true store s
        ⟨ncs, scp, .RemoveExecutor eid⟩).2.2.extractor_executors_table
        meta.extractor.name).getD [] ∧
      (∀ t ∈ (lookupA store.taskAssignments eid).getD [],
        t ∈ (apply_state_machine_updates true store s
          ⟨ncs, scp, .RemoveExecutor eid⟩).2.2.unassigned_tasks) ∧
      lookupA (apply_state_machine_updates true store s
        ⟨ncs, scp, .RemoveExecutor eid⟩).2.2.executor_running_task_count eid = none) ∧
    (lookupA store.executors eid = none →
      (apply_state_machine_updates true store s ⟨ncs, scp, .RemoveExecutor eid⟩).1 =
        .error (.DatabaseError ("Executor " ++ eid ++ " not found")) ∧
      (apply_state_machine_updates true store s ⟨ncs, scp, .RemoveExecutor eid⟩).2.1 =
        store ∧
      (apply_state_machine_updates true store s ⟨ncs, scp, .RemoveExecutor eid⟩).2.2 =
        s) := by
  constructor
  · intro meta hmeta
    rw [asmu_remove_found store s eid ncs scp txsc meta hsp hmeta]
    refine ⟨rfl, ?_, ?_, ?_, ?_, ?_⟩
    · simp [lookupA_eraseA]
    · simp [lookupA_eraseA]
    · show meta.id ∉ (lookupA (insertA _ _ _) _).getD []
      rw [lookupA_insertA, if_pos rfl]
      intro hmem
      exact ((mem_removeS _ _ _).mp hmem).2 rfl
    · intro t ht
      show t ∈ List.foldl insertS _ _
      exact (mem_foldl_insertS _ _ t).mpr (Or.inr ht)
    · simp [lookupA_eraseA]
  · intro hmeta
    rw [asmu_remove_missing store s eid ncs scp txsc hsp hmeta]
    exact ⟨rfl, rfl, rfl⟩

/-- C5 witness: concrete instantiation with executor E1 registered with
extractor X and holding assignment set {T1}, plus a fresh state change in
the request; both branches of the theorem are discharged (the absent branch
at executor E2). -/
theorem C5_remove_executor_witness :
    (lookupA { Store.empty with
        executors := [("E1", ⟨"E1", 100, "a", extractorX⟩)],
        taskAssignments := [("E1", ["T1"])] }.executors "E1" =
      some ⟨"E1", 100, "a", extractorX⟩) ∧
    lookupA (apply_state_machine_updates true
      { Store.empty with
        executors := [("E1", ⟨"E1", 100, "a", extractorX⟩)],
        taskAssignments := [("E1", ["T1"])] }
      IndexifyState.empty
      ⟨[change1], [], .RemoveExecutor "E1"⟩).2.1.executors "E1" = none :=
  ⟨rfl,
   ((C5_remove_executor
     { Store.empty with
       executors := [("E1", ⟨"E1", 100, "a", extractorX⟩)],
       taskAssignments := [("E1", ["T1"])] }
     IndexifyState.empty "E1" [change1] []
     (set_new_state_changes Store.empty.stateChanges [change1]) rfl).1
     ⟨"E1", 100, "a", extractorX⟩ rfl).2.1⟩

theorem asmu_mark_none (store : Store) (s : IndexifyState) (cid pname : String)
    (t : Nat) (h : lookupA store.policiesAppliedOnContent cid = none) :
    apply_state_machine_updates true store s (markPolicyReq cid pname t) =
      (.error (.DatabaseError (no_mapping_msg cid)), store, s) := by
  simp only [apply_state_machine_updates, markPolicyReq, set_new_state_changes,
    List.foldl_nil, set_processed_state_changes, payload_forward,
    mark_extraction_policy_applied_on_content, h]

theorem asmu_mark_absent_policy (store : Store) (s : IndexifyState)
    (cid pname : String) (t : Nat) (cpm : ContentExtractionPolicyMapping)
    (h : lookupA store.policiesAppliedOnContent cid = some cpm)
    (hnp : pname ∉ cpm.extraction_policy_names) :
    apply_state_machine_updates true store s (markPolicyReq cid pname t) =
      (.error (.DatabaseError (policy_not_registered_msg pname cid)), store, s) := by
  simp only [apply_state_machine_updates, markPolicyReq, set_new_state_changes,
    List.foldl_nil, set_processed_state_changes, payload_forward,
    mark_extraction_policy_applied_on_content, h, hnp, if_false, ite_false]

theorem asmu_mark_present (store : Store) (s : IndexifyState)
    (cid pname : String) (t : Nat) (cpm : ContentExtractionPolicyMapping)
    (h : lookupA store.policiesAppliedOnContent cid = some cpm)
    (hp : pname ∈ cpm.extraction_policy_names) :
    apply_state_machine_updates true store s (markPolicyReq cid pname t) =
      (.ok (),
       { store with
         policiesAppliedOnContent :=
           insertA store.policiesAppliedOnContent cid
             ⟨cid, cpm.extraction_policy_names,
               insertA cpm.time_of_policy_completion pname t⟩ },
       s) := by
  simp only [apply_state_machine_updates, markPolicyReq, set_new_state_changes,
    List.foldl_nil, set_processed_state_changes, payload_forward,
    mark_extraction_policy_applied_on_content, h, hp, if_true, ite_true, apply,
    apply_payload, mark_state_changes_processed, if_true]

/-- C8: counterexample.  Against a fresh store, where no
`ExtractionPoliciesAppliedOnContent` record exists for content c1 (so the
policy p1 is certainly not present in any persisted
`extraction_policy_names` set of c1), the request fails — but with the
"No content policies applied on content found" NotFound-style message, not
with the PolicyNotRegistered-style error the claim names.  The state is
unchanged. -/
theorem C8_absent_mapping_other_error :
    c8fail.1 = .error (.DatabaseError (no_mapping_msg "c1")) ∧
    c8fail.2.1 = Store.empty ∧
    c8fail.2.2 = IndexifyState.empty ∧
    no_mapping_msg "c1" ≠ policy_not_registered_msg "p1" "c1" :=
  ⟨rfl, rfl, rfl, by decide⟩

/-- C8 (amended): when a mapping record for the content exists,
`MarkExtractionPolicyAppliedOnContent` fails with the
PolicyNotRegistered-style error exactly when the named policy is absent
from the record's `extraction_policy_names` (state unchanged); when the
policy is present the request succeeds, writes
`time_of_policy_completion[policy_name] = ts` into the persisted record,
and mutates no reverse index; when the mapping record itself is absent the
request fails with a NotFound-style "No content policies applied on
content found" error, state unchanged. -/
theorem C8_mark_policy_applied (store : Store) (s : IndexifyState)
    (cid pname : String) (t : Nat) :
    (lookupA store.policiesAppliedOnContent cid = none →
      apply_state_machine_updates true store s (markPolicyReq cid pname t) =
        (.error (.DatabaseError (no_mapping_msg cid)), store, s)) ∧
    (∀ cpm, lookupA store.policiesAppliedOnContent cid = some cpm →
      (pname ∉ cpm.extraction_policy_names →
        apply_state_machine_updates true store s (markPolicyReq cid pname t) =
          (.error (.DatabaseError (policy_not_registered_msg pname cid)), store, s)) ∧
      (pname ∈ cpm.extraction_policy_names →
        (apply_state_machine_updates true store s (markPolicyReq cid pname t)).1 =
          .ok () ∧
        lookupA (apply_state_machine_updates true store s
            (markPolicyReq cid pname t)).2.1.policiesAppliedOnContent cid =
          some ⟨cid, cpm.extraction_policy_names,
            insertA cpm.time_of_policy_completion pname t⟩ ∧
        (apply_state_machine_updates true store s (markPolicyReq cid pname t)).2.2 =
          s)) := by
  refine ⟨fun h => asmu_mark_none store s cid pname t h, fun cpm h => ⟨?_, ?_⟩⟩
  · intro hnp
    exact asmu_mark_absent_policy store s cid pname t cpm h hnp
  · intro hp
    rw [asmu_mark_present store s cid pname t cpm h hp]
    refine ⟨rfl, ?_, rfl⟩
    simp [lookupA_insertA]

/-- C8 witness: a concrete store holding a mapping record for c1 with
policy set {p1}; the present branch succeeds and records the completion
time, and the absent-policy branch fails with the PolicyNotRegistered-style
message at policy p2. -/
theorem C8_mark_policy_applied_witness :
    (lookupA { Store.empty with
        policiesAppliedOnContent := [("c1", ⟨"c1", ["p1"], []⟩)] }.policiesAppliedOnContent
        "c1" = some ⟨"c1", ["p1"], []⟩) ∧
    lookupA (apply_state_machine_updates true
      { Store.empty with policiesAppliedOnContent := [("c1", ⟨"c1", ["p1"], []⟩)] }
      IndexifyState.empty
      (markPolicyReq "c1" "p1" 5)).2.1.policiesAppliedOnContent "c1" =
      some ⟨"c1", ["p1"], [("p1", 5)]⟩ ∧
    apply_state_machine_updates true
      { Store.empty with policiesAppliedOnContent := [("c1", ⟨"c1", ["p1"], []⟩)] }
      IndexifyState.empty (markPolicyReq "c1" "p2" 5) =
      (.error (.DatabaseError (policy_not_registered_msg "p2" "c1")),
       { Store.empty with policiesAppliedOnContent := [("c1", ⟨"c1", ["p1"], []⟩)] },
       IndexifyState.empty) :=
  ⟨rfl,
   (((C8_mark_policy_applied
       { Store.empty with policiesAppliedOnContent := [("c1", ⟨"c1", ["p1"], []⟩)] }
       IndexifyState.empty "c1" "p1" 5).2 ⟨"c1", ["p1"], []⟩ rfl).2
       (by decide)).2.1,
   ((C8_mark_policy_applied
       { Store.empty with policiesAppliedOnContent := [("c1", ⟨"c1", ["p1"], []⟩)] }
       IndexifyState.empty "c1" "p2" 5).2 ⟨"c1", ["p1"], []⟩ rfl).1 (by decide)⟩

theorem asmu_scp_err (store : Store) (s : IndexifyState) (ncs : List StateChange)
    (scp : List StateChangeProcessed) (pl : RequestPayload) (e : StateMachineError)
    (herr : set_processed_state_changes (set_new_state_changes store.stateChanges ncs)
      scp = .error e) :
    apply_state_machine_updates true store s ⟨ncs, scp, pl⟩ = (.error e, store, s) := by
  simp only [apply_state_machine_updates, herr]

theorem asmu_mark_scp_ok (store : Store) (s : IndexifyState) (ncs : List StateChange)
    (scp scp2 : List StateChangeProcessed) (sc1 sc2 : AList StateChange)
    (hok1 : set_processed_state_changes (set_new_state_changes store.stateChanges ncs)
      scp = .ok sc1)
    (hok2 : set_processed_state_changes sc1 scp2 = .ok sc2) :
    apply_state_machine_updates true store s ⟨ncs, scp, .MarkStateChangesProcessed scp2⟩ =
      (.ok (), { store with stateChanges := sc2 },
       apply ⟨ncs, scp, .MarkStateChangesProcessed scp2⟩ s) := by
  simp only [apply_state_machine_updates, hok1, payload_forward, hok2, if_true, apply]

theorem asmu_mark_scp_err2 (store : Store) (s : IndexifyState) (ncs : List StateChange)
    (scp scp2 : List StateChangeProcessed) (sc1 : AList StateChange)
    (e : StateMachineError)
    (hok1 : set_processed_state_changes (set_new_state_changes store.stateChanges ncs)
      scp = .ok sc1)
    (herr : set_processed_state_changes sc1 scp2 = .error e) :
    apply_state_machine_updates true store s ⟨ncs, scp, .MarkStateChangesProcessed scp2⟩ =
      (.error e, store, s) := by
  simp only [apply_state_machine_updates, hok1, payload_forward, herr]

/-- C7: if any entry of `state_changes_processed` or of a
`MarkStateChangesProcessed` payload names a state-change id with no record
visible in the `StateChanges` column of the transaction (the persisted
column plus the request's own new state changes), the request fails with
the NotFound-style "State change not found" database error and neither the
store nor any reverse index changes; otherwise the request succeeds and
each named record's `processed_at` is set to the supplied timestamp,
overwriting any previous value. -/
theorem C7_processed_entries (store : Store) (s : IndexifyState)
    (ncs : List StateChange) (scp scp2 : List StateChangeProcessed) :
    ((∃ e, (e ∈ scp ∨ e ∈ scp2) ∧
        lookupA (set_new_state_changes store.stateChanges ncs) e.state_change_id =
          none) →
      apply_state_machine_updates true store s
          ⟨ncs, scp, .MarkStateChangesProcessed scp2⟩ =
        (.error (.DatabaseError "State change not found"), store, s)) ∧
    ((∀ e, (e ∈ scp ∨ e ∈ scp2) →
        (lookupA (set_new_state_changes store.stateChanges ncs)
          e.state_change_id).isSome = true) →
      ((scp ++ scp2).map (fun e => e.state_change_id)).Nodup →
      (apply_state_machine_updates true store s
          ⟨ncs, scp, .MarkStateChangesProcessed scp2⟩).1 = .ok () ∧
      ∀ e, (e ∈ scp ∨ e ∈ scp2) →
        ∃ c, lookupA (apply_state_machine_updates true store s
            ⟨ncs, scp, .MarkStateChangesProcessed scp2⟩).2.1.stateChanges
            e.state_change_id = some c ∧
          c.processed_at = some e.processed_at) := by
  constructor
  · rintro ⟨e, he, hm⟩
    by_cases hA : ∃ f ∈ scp,
        lookupA (set_new_state_changes store.stateChanges ncs) f.state_change_id = none
    · obtain ⟨f, hf, hfm⟩ := hA
      exact asmu_scp_err store s ncs scp _ _ (sp_err_of_missing hf hfm)
    · push_neg at hA
      have hsome : ∀ f ∈ scp,
          (lookupA (set_new_state_changes store.stateChanges ncs)
            f.state_change_id).isSome := by
        intro f hf
        exact Option.ne_none_iff_isSome.mp (hA f hf)
      obtain ⟨sc1, hok1⟩ := sp_ok_of_present hsome
      have he2 : e ∈ scp2 := by
        rcases he with h | h
        · exact absurd hm (hA e h)
        · exact h
      have hm1 : lookupA sc1 e.state_change_id = none := (sp_keys hok1 _).mpr hm
      exact asmu_mark_scp_err2 store s ncs scp scp2 sc1 _ hok1
        (sp_err_of_missing he2 hm1)
  · intro hall hnd
    have hsome1 : ∀ f ∈ scp,
        (lookupA (set_new_state_changes store.stateChanges ncs)
          f.state_change_id).isSome := fun f hf => hall f (Or.inl hf)
    obtain ⟨sc1, hok1⟩ := sp_ok_of_present hsome1
    have hsome2 : ∀ f ∈ scp2, (lookupA sc1 f.state_change_id).isSome := by
      intro f hf
      have h1 := hall f (Or.inr hf)
      have h2 := sp_keys hok1 f.state_change_id
      exact Option.ne_none_iff_isSome.mp
        (fun hn => Option.ne_none_iff_isSome.mpr h1 (h2.mp hn))
    obtain ⟨sc2, hok2⟩ := sp_ok_of_present hsome2
    rw [asmu_mark_scp_ok store s ncs scp scp2 sc1 sc2 hok1 hok2]
    rw [List.map_append, List.nodup_append] at hnd
    obtain ⟨hnd1, hnd2, hdisj⟩ := hnd
    refine ⟨rfl, ?_⟩
    intro e he
    show ∃ c, lookupA sc2 e.state_change_id = some c ∧ _
    rcases he with he | he
    · obtain ⟨c, hc, hpa⟩ := sp_sets hok1 hnd1 e he
      have huntouched : ∀ f ∈ scp2, f.state_change_id ≠ e.state_change_id := by
        intro f hf hfe
        have h2 : f.state_change_id ∈ List.map
            (fun x : StateChangeProcessed => x.state_change_id) scp2 :=
          List.mem_map_of_mem _ hf
        rw [hfe] at h2
        exact hdisj
          (List.mem_map_of_mem (fun x : StateChangeProcessed => x.state_change_id) he) h2
      rw [sp_untouched hok2 e.state_change_id huntouched]
      exact ⟨c, hc, hpa⟩
    · exact sp_sets hok2 hnd2 e he

/-- C7 witness: against a store holding records c1 (unprocessed) and c2
(processed at 3), a request processing c1 via `state_changes_processed` and
c2 via the `MarkStateChangesProcessed` payload succeeds and overwrites both
`processed_at` fields; and a request naming the absent id c9 fails with the
NotFound-style error, leaving store and state unchanged. -/
theorem C7_processed_entries_witness :
    ((∀ e : StateChangeProcessed,
        (e ∈ [(⟨"c1", 7⟩ : StateChangeProcessed)] ∨
          e ∈ [(⟨"c2", 8⟩ : StateChangeProcessed)]) →
        (lookupA (set_new_state_changes { Store.empty with
            stateChanges := [("c1", ⟨"c1", "k", "p", 1, none⟩),
              ("c2", ⟨"c2", "k", "p", 2, some 3⟩)] }.stateChanges [])
          e.state_change_id).isSome = true) ∧
      (∀ c, lookupA (apply_state_machine_updates true
          { Store.empty with
            stateChanges := [("c1", ⟨"c1", "k", "p", 1, none⟩),
              ("c2", ⟨"c2", "k", "p", 2, some 3⟩)] }
          IndexifyState.empty
          ⟨[], [⟨"c1", 7⟩], .MarkStateChangesProcessed [⟨"c2", 8⟩]⟩).2.1.stateChanges
          "c2" = some c → c.processed_at = some 8)) ∧
    apply_state_machine_updates true
      { Store.empty with
        stateChanges := [("c1", ⟨"c1", "k", "p", 1, none⟩),
          ("c2", ⟨"c2", "k", "p", 2, some 3⟩)] }
      IndexifyState.empty ⟨[], [⟨"c9", 7⟩], .MarkStateChangesProcessed []⟩ =
      (.error (.DatabaseError "State change not found"),
       { Store.empty with
         stateChanges := [("c1", ⟨"c1", "k", "p", 1, none⟩),
           ("c2", ⟨"c2", "k", "p", 2, some 3⟩)] },
       IndexifyState.empty) := by
  have hall : ∀ e : StateChangeProcessed,
      (e ∈ [(⟨"c1", 7⟩ : StateChangeProcessed)] ∨
        e ∈ [(⟨"c2", 8⟩ : StateChangeProcessed)]) →
      (lookupA (set_new_state_changes { Store.empty with
          stateChanges := [("c1", ⟨"c1", "k", "p", 1, none⟩),
            ("c2", ⟨"c2", "k", "p", 2, some 3⟩)] }.stateChanges [])
        e.state_change_id).isSome = true := by
    intro e he
    rcases he with he | he
    · obtain rfl := List.mem_singleton.mp he
      rfl
    · obtain rfl := List.mem_singleton.mp he
      rfl
  refine ⟨⟨hall, ?_⟩, ?_⟩
  · have h := ((C7_processed_entries
      { Store.empty with
        stateChanges := [("c1", ⟨"c1", "k", "p", 1, none⟩),
          ("c2", ⟨"c2", "k", "p", 2, some 3⟩)] }
      IndexifyState.empty [] [⟨"c1", 7⟩] [⟨"c2", 8⟩]).2 hall (by decide)).2
      ⟨"c2", 8⟩ (Or.inr (by decide))
    obtain ⟨c, hc, hpa⟩ := h
    intro c' hc'
    rw [hc] at hc'
    obtain rfl := Option.some.inj hc'.symm
    exact hpa
  · exact (C7_processed_entries
      { Store.empty with
        stateChanges := [("c1", ⟨"c1", "k", "p", 1, none⟩),
          ("c2", ⟨"c2", "k", "p", 2, some 3⟩)] }
      IndexifyState.empty [] [⟨"c9", 7⟩] []).1
      ⟨⟨"c9", 7⟩, Or.inl (by decide), by decide⟩

theorem payload_forward_unprocessed (txn : Store) (s : IndexifyState)
    (pl : RequestPayload) (txn' : Store) (s' : IndexifyState)
    (h : payload_forward txn s pl = (.ok txn', s')) :
    s'.unprocessed_state_changes = s.unprocessed_state_changes := by
  cases pl <;>
    first
      | (simp only [payload_forward, Prod.mk.injEq] at h
         obtain ⟨-, h2⟩ := h
         subst h2
         rfl)
      | skip
  case UpdateTask task mf eidOpt cm =>
    simp only [payload_forward, Prod.mk.injEq] at h
    obtain ⟨-, h2⟩ := h
    subst h2
    cases mf with
    | false => rfl
    | true => cases eidOpt <;> rfl
  case MarkExtractionPolicyAppliedOnContent cid pn t =>
    rcases hm : mark_extraction_policy_applied_on_content txn.policiesAppliedOnContent
        cid pn t with e | m
    · simp only [payload_forward, hm] at h
      exact absurd h (by simp)
    · simp only [payload_forward, hm, Prod.mk.injEq] at h
      obtain ⟨-, h2⟩ := h
      subst h2
      rfl
  case MarkStateChangesProcessed l =>
    rcases hm : set_processed_state_changes txn.stateChanges l with e | sc
    · simp only [payload_forward, hm] at h
      exact absurd h (by simp)
    · simp only [payload_forward, hm, Prod.mk.injEq] at h
      obtain ⟨-, h2⟩ := h
      subst h2
      rfl

theorem payload_forward_stateChanges (txn : Store) (s : IndexifyState)
    (pl : RequestPayload) (txn' : Store) (s' : IndexifyState)
    (hnm : ∀ l, pl ≠ .MarkStateChangesProcessed l)
    (h : payload_forward txn s pl = (.ok txn', s')) :
    txn'.stateChanges = txn.stateChanges := by
  cases pl <;>
    first
      | (simp only [payload_forward, Prod.mk.injEq, Except.ok.injEq] at h
         obtain ⟨h1, -⟩ := h
         subst h1
         rfl)
      | skip
  case UpdateTask task mf eidOpt cm =>
    simp only [payload_forward, Prod.mk.injEq, Except.ok.injEq] at h
    obtain ⟨h1, -⟩ := h
    subst h1
    cases mf with
    | false => rfl
    | true => cases eidOpt <;> rfl
  case MarkExtractionPolicyAppliedOnContent cid pn t =>
    rcases hm : mark_extraction_policy_applied_on_content txn.policiesAppliedOnContent
        cid pn t with e | m
    · simp only [payload_forward, hm] at h
      exact absurd h (by simp)
    · simp only [payload_forward, hm, Prod.mk.injEq, Except.ok.injEq] at h
      obtain ⟨h1, -⟩ := h
      subst h1
      rfl
  case MarkStateChangesProcessed l => exact absurd rfl (hnm l)

theorem apply_payload_unprocessed (s2 : IndexifyState) (pl : RequestPayload)
    (hnm : ∀ l, pl ≠ .MarkStateChangesProcessed l) :
    (apply_payload s2 pl).unprocessed_state_changes =
      s2.unprocessed_state_changes := by
  cases pl <;>
    first
      | rfl
      | skip
  case CreateTasks tasks =>
    exact foldl_pres (fun st => st.unprocessed_state_changes) create_task_reverse
      (fun st a => rfl) tasks s2
  case AssignTask assignments =>
    exact foldl_pres (fun st => st.unprocessed_state_changes) assign_task_reverse
      (fun st a => rfl) assignments s2
  case CreateContent cm =>
    exact foldl_pres (fun st => st.unprocessed_state_changes) create_content_reverse
      (fun st a => rfl) cm s2
  case CreateExtractionPolicy pol upd newsch => cases upd <;> rfl
  case UpdateTask task mf eidOpt cm =>
    cases mf with
    | false =>
      show (cm.foldl create_content_reverse _).unprocessed_state_changes =
        s2.unprocessed_state_changes
      exact foldl_pres (fun st => st.unprocessed_state_changes) create_content_reverse
        (fun st a => rfl) cm s2
    | true =>
      cases eidOpt with
      | none =>
        show (cm.foldl create_content_reverse _).unprocessed_state_changes =
          s2.unprocessed_state_changes
        exact foldl_pres (fun st => st.unprocessed_state_changes) create_content_reverse
          (fun st a => rfl) cm _
      | some eid =>
        show (cm.foldl create_content_reverse _).unprocessed_state_changes =
          s2.unprocessed_state_changes
        exact foldl_pres (fun st => st.unprocessed_state_changes) create_content_reverse
          (fun st a => rfl) cm _
  case MarkStateChangesProcessed l => exact absurd rfl (hnm l)

theorem apply_unprocessed (ncs : List StateChange) (scp : List StateChangeProcessed)
    (pl : RequestPayload) (s : IndexifyState)
    (hnm : ∀ l, pl ≠ .MarkStateChangesProcessed l) :
    (apply ⟨ncs, scp, pl⟩ s).unprocessed_state_changes =
      scp.foldl (fun u c => removeS u c.state_change_id)
        (ncs.foldl (fun u change => insertS u change.id)
          s.unprocessed_state_changes) := by
  show (apply_payload _ pl).unprocessed_state_changes = _
  rw [apply_payload_unprocessed _ pl hnm, foldl_mark_unprocessed]

theorem asmu_generic (store : Store) (s : IndexifyState) (ncs : List StateChange)
    (scp : List StateChangeProcessed) (pl : RequestPayload) (sc1 : AList StateChange)
    (res : Except StateMachineError Store) (s'' : IndexifyState)
    (hsp : set_processed_state_changes (set_new_state_changes store.stateChanges ncs)
      scp = .ok sc1)
    (hnr : ∀ eid, pl ≠ .RemoveExecutor eid)
    (hpf : payload_forward { store with stateChanges := sc1 } s pl = (res, s'')) :
    apply_state_machine_updates true store s ⟨ncs, scp, pl⟩ =
      (match res with
       | .ok txn2 => (.ok (), txn2, apply ⟨ncs, scp, pl⟩ s'')
       | .error e => (.error e, store, s'')) := by
  cases pl <;>
    first
      | exact absurd rfl (hnr _)
      | (simp only [apply_state_machine_updates, hsp, hpf]
         cases res <;> rfl)

theorem inv_preserved_generic (store : Store) (s : IndexifyState)
    (ncs : List StateChange) (scp : List StateChangeProcessed) (pl : RequestPayload)
    (store' : Store) (s' : IndexifyState) (sc1 : AList StateChange)
    (hinv : unprocessed_inv store s) (hwf : state_changes_wf ncs)
    (hsp : set_processed_state_changes (set_new_state_changes store.stateChanges ncs)
      scp = .ok sc1)
    (hnr : ∀ eid, pl ≠ .RemoveExecutor eid)
    (hnm : ∀ l, pl ≠ .MarkStateChangesProcessed l)
    (hok : apply_state_machine_updates true store s ⟨ncs, scp, pl⟩ =
      (.ok (), store', s')) :
    unprocessed_inv store' s' := by
  rcases hpf : payload_forward { store with stateChanges := sc1 } s pl with ⟨res, s''⟩
  rw [asmu_generic store s ncs scp pl sc1 res s'' hsp hnr hpf] at hok
  cases res with
  | error e => exact absurd hok (by simp)
  | ok txn2 =>
    simp only [Prod.mk.injEq] at hok
    obtain ⟨-, h1, h2⟩ := hok
    subst h1
    subst h2
    have hst : txn2.stateChanges = sc1 := by
      have := payload_forward_stateChanges { store with stateChanges := sc1 } s pl
        txn2 s'' hnm hpf
      simpa using this
    have hup : s''.unprocessed_state_changes = s.unprocessed_state_changes :=
      payload_forward_unprocessed { store with stateChanges := sc1 } s pl txn2 s'' hpf
    intro id
    show id ∈ (apply ⟨ncs, scp, pl⟩ s'').unprocessed_state_changes ↔
      ∃ c, lookupA txn2.stateChanges id = some c ∧ c.processed_at = none
    rw [hst, apply_unprocessed ncs scp pl s'' hnm, hup]
    exact sp_inv (sn_inv hinv hwf) hsp id

/-- C6: counterexample.  Register E1, then remove it with a `RemoveExecutor`
request that carries a fresh (pending) state change c1.  Both requests
succeed; the persisted `StateChanges` record c1 has `processed_at = None`,
yet c1 is not in `unprocessed_state_changes`: the `RemoveExecutor` handler
commits and returns early, bypassing `apply` and its state-change
bookkeeping, so the claimed invariant fails. -/
theorem C6_remove_executor_skips_bookkeeping :
    c6run.isOk = true ∧
    (lookupA c6res.1.stateChanges "c1").map (fun c => c.processed_at) = some none ∧
    "c1" ∉ c6res.2.unprocessed_state_changes ∧
    ¬ unprocessed_inv c6res.1 c6res.2 := by
  refine ⟨rfl, rfl, by decide, ?_⟩
  intro h
  have hmem := (h "c1").mpr ⟨⟨"c1", "ExecutorRemoved", "E1", 1, none⟩, rfl, rfl⟩
  exact absurd hmem (by decide)

/-- C6 (amended): the invariant `unprocessed_state_changes = ids of
persisted StateChanges records with processed_at = None` is preserved by
every successfully processed request whose incoming new state changes are
pending, provided a `RemoveExecutor` request carries no new or processed
state changes; a successful `RemoveExecutor` that does carry them bypasses
`apply` and can break the invariant. -/
theorem C6_unprocessed_inv_preserved (store : Store) (s : IndexifyState)
    (req : StateMachineUpdateRequest) (store' : Store) (s' : IndexifyState)
    (hinv : unprocessed_inv store s)
    (hwf : state_changes_wf req.new_state_changes)
    (hre : ∀ eid, req.payload = .RemoveExecutor eid →
      req.new_state_changes = [] ∧ req.state_changes_processed = [])
    (hok : apply_state_machine_updates true store s req = (.ok (), store', s')) :
    unprocessed_inv store' s' := by
  obtain ⟨ncs, scp, pl⟩ := req
  rcases hsp : set_processed_state_changes (set_new_state_changes store.stateChanges ncs)
      scp with e | sc1
  · rw [asmu_scp_err store s ncs scp pl e hsp] at hok
    exact absurd hok (by simp)
  · have hinv1 := sp_inv (sn_inv hinv hwf) hsp
    cases pl with
    | RemoveExecutor eid =>
      obtain ⟨hn, hs⟩ := hre eid rfl
      subst hn
      subst hs
      have hsc1 : sc1 = store.stateChanges := by
        simpa [set_new_state_changes, set_processed_state_changes] using hsp.symm
      rcases hl : lookupA store.executors eid with _ | meta
      · rw [asmu_remove_missing store s eid [] [] sc1 hsp hl] at hok
        exact absurd hok (by simp)
      · rw [asmu_remove_found store s eid [] [] sc1 meta hsp hl] at hok
        simp only [Prod.mk.injEq] at hok
        obtain ⟨-, h1, h2⟩ := hok
        subst h1
        subst h2
        intro id
        show id ∈ s.unprocessed_state_changes ↔
          ∃ c, lookupA sc1 id = some c ∧ c.processed_at = none
        rw [hsc1]
        exact hinv id
    | MarkStateChangesProcessed scp2 =>
      rcases hsp2 : set_processed_state_changes sc1 scp2 with e | sc2
      · rw [asmu_mark_scp_err2 store s ncs scp scp2 sc1 e hsp hsp2] at hok
        exact absurd hok (by simp)
      · rw [asmu_mark_scp_ok store s ncs scp scp2 sc1 sc2 hsp hsp2] at hok
        simp only [Prod.mk.injEq] at hok
        obtain ⟨-, h1, h2⟩ := hok
        subst h1
        subst h2
        have h3 : (apply ⟨ncs, scp, .MarkStateChangesProcessed scp2⟩
            s).unprocessed_state_changes =
            scp2.foldl (fun u c => removeS u c.state_change_id)
              (scp.foldl (fun u c => removeS u c.state_change_id)
                (ncs.foldl (fun u change => insertS u change.id)
                  s.unprocessed_state_changes)) := by
          simp only [apply, apply_payload]
          rw [foldl_mark_unprocessed, foldl_mark_unprocessed]
        intro id
        show id ∈ (apply ⟨ncs, scp, .MarkStateChangesProcessed scp2⟩
            s).unprocessed_state_changes ↔
          ∃ c, lookupA sc2 id = some c ∧ c.processed_at = none
        rw [h3]
        exact sp_inv hinv1 hsp2 id
    | CreateIndex index ns id =>
      exact inv_preserved_generic store s ncs scp _ store' s' sc1 hinv hwf hsp
        (by simp) (by simp) hok
    | CreateTasks tasks =>
      exact inv_preserved_generic store s ncs scp _ store' s' sc1 hinv hwf hsp
        (by simp) (by simp) hok
    | AssignTask assignments =>
      exact inv_preserved_generic store s ncs scp _ store' s' sc1 hinv hwf hsp
        (by simp) (by simp) hok
    | UpdateTask task mf eidOpt cm =>
      exact inv_preserved_generic store s ncs scp _ store' s' sc1 hinv hwf hsp
        (by simp) (by simp) hok
    | RegisterExecutor addr eid ext ts =>
      exact inv_preserved_generic store s ncs scp _ store' s' sc1 hinv hwf hsp
        (by simp) (by simp) hok
    | CreateContent cm =>
      exact inv_preserved_generic store s ncs scp _ store' s' sc1 hinv hwf hsp
        (by simp) (by simp) hok
    | CreateExtractionPolicy pol upd newsch =>
      exact inv_preserved_generic store s ncs scp _ store' s' sc1 hinv hwf hsp
        (by simp) (by simp) hok
    | SetContentExtractionPolicyMappings maps =>
      exact inv_preserved_generic store s ncs scp _ store' s' sc1 hinv hwf hsp
        (by simp) (by simp) hok
    | MarkExtractionPolicyAppliedOnContent cid pn t =>
      exact inv_preserved_generic store s ncs scp _ store' s' sc1 hinv hwf hsp
        (by simp) (by simp) hok
    | CreateNamespace name sch =>
      exact inv_preserved_generic store s ncs scp _ store' s' sc1 hinv hwf hsp
        (by simp) (by simp) hok
    | Other =>
      exact inv_preserved_generic store s ncs scp _ store' s' sc1 hinv hwf hsp
        (by simp) (by simp) hok

/-- C6 amended-theorem witness: the invariant holds on the fresh replica and
is preserved across a request that adds a pending state change c1 with a
no-op payload. -/
theorem C6_unprocessed_inv_preserved_witness :
    unprocessed_inv
      (apply_state_machine_updates true Store.empty IndexifyState.empty
        ⟨[change1], [], .Other⟩).2.1
      (apply_state_machine_updates true Store.empty IndexifyState.empty
        ⟨[change1], [], .Other⟩).2.2 :=
  C6_unprocessed_inv_preserved Store.empty IndexifyState.empty
    ⟨[change1], [], .Other⟩ _ _
    (fun id => by simp [lookupA, IndexifyState.empty, Store.empty])
    (fun c hc => by
      obtain rfl := List.mem_singleton.mp hc
      rfl)
    (fun eid h => by cases h)
    rfl

theorem insertSorted_perm (x : String) (l : List String) :
    (insertSorted x l).Perm (x :: l) := by
  induction l with
  | nil => exact List.Perm.refl _
  | cons y ys ih =>
    by_cases hxy : x ≤ y
    · rw [insertSorted, if_pos hxy]
    · rw [insertSorted, if_neg hxy]
      exact (ih.cons y).trans (List.Perm.swap x y ys)

theorem sorted_insertSorted (x : String) (l : List String)
    (h : l.Sorted (· ≤ ·)) : (insertSorted x l).Sorted (· ≤ ·) := by
  induction l with
  | nil => simp [insertSorted]
  | cons y ys ih =>
    rw [List.sorted_cons] at h
    obtain ⟨hy, hys⟩ := h
    by_cases hxy : x ≤ y
    · rw [insertSorted, if_pos hxy]
      refine List.sorted_cons.mpr ⟨?_, List.sorted_cons.mpr ⟨hy, hys⟩⟩
      intro b hb
      rcases List.mem_cons.mp hb with rfl | hb
      · exact hxy
      · exact le_trans hxy (hy b hb)
    · rw [insertSorted, if_neg hxy]
      refine List.sorted_cons.mpr ⟨?_, ih hys⟩
      intro b hb
      have hmem : b ∈ x :: ys := (insertSorted_perm x ys).mem_iff.mp hb
      rcases List.mem_cons.mp hmem with rfl | hb2
      · exact le_of_not_le hxy
      · exact hy b hb2

theorem sortS_sorted (xs : List String) : (sortS xs).Sorted (· ≤ ·) := by
  induction xs with
  | nil => exact List.sorted_nil
  | cons x xs ih => exact sorted_insertSorted x _ ih

theorem sortS_perm (xs : List String) : (sortS xs).Perm xs := by
  induction xs with
  | nil => exact List.Perm.refl _
  | cons x xs ih =>
    exact (insertSorted_perm x (sortS xs)).trans (ih.cons x)

theorem encode_id_set_perm (xs ys : List String) (h : xs.Perm ys) :
    encode_id_set xs = encode_id_set ys := by
  have hp : (sortS xs).Perm (sortS ys) :=
    ((sortS_perm xs).trans h).trans (sortS_perm ys).symm
  have he : sortS xs = sortS ys :=
    List.eq_of_perm_of_sorted hp (sortS_sorted xs) (sortS_sorted ys)
  unfold encode_id_set
  rw [he]

/-- C4: applying the same ordered request sequence on two fresh replicas is
deterministic: the runs yield the same outcome, and on success the
persisted columns encode to identical bytes under the canonical codec
(including the set-valued `TaskAssignments` records) and the reverse
indexes are structurally equal.  The codec itself is modelled from the
spec (§4.1, §6), its sources not being part of this repository; the lemma
`encode_id_set_perm` above substantiates that the modelled encoding of a
task-assignment set does not depend on the set's insertion order. -/
theorem C4_replica_determinism (reqs : List StateMachineUpdateRequest)
    (r1 r2 : Except StateMachineError (Store × IndexifyState))
    (h1 : r1 = runSeq freshPair reqs) (h2 : r2 = runSeq freshPair reqs) :
    r1 = r2 ∧
    ∀ st1 s1 st2 s2, r1 = .ok (st1, s1) → r2 = .ok (st2, s2) →
      encodeStore st1 = encodeStore st2 ∧ s1 = s2 := by
  subst h1
  subst h2
  refine ⟨rfl, ?_⟩
  intro st1 s1 st2 s2 e1 e2
  rw [e1] at e2
  have h3 := Except.ok.inj e2
  have h4 : st1 = st2 := congrArg Prod.fst h3
  have h5 : s1 = s2 := congrArg Prod.snd h3
  subst h4
  subst h5
  exact ⟨rfl, rfl⟩

/-- C4 witness: two replica runs of the concrete three-request sequence of
the spec's §8 scenarios agree. -/
theorem C4_replica_determinism_witness :
    (runSeq freshPair [reqRegister, reqCreate1, reqAssign1]).isOk = true ∧
    runSeq freshPair [reqRegister, reqCreate1, reqAssign1] =
      runSeq freshPair [reqRegister, reqCreate1, reqAssign1] :=
  ⟨rfl, (C4_replica_determinism [reqRegister, reqCreate1, reqAssign1] _ _ rfl rfl).1⟩

end Indexify
